import Mathlib

/-!
The announce notification server of dht-hook (server.go).

A shallow embedding of package hook. The server keeps two slices, the announces
and the remotes, and a background loop (Server.start) that once per second visits
every remote, pushes the recent announces to the ones that are due, and sweeps
both slices.

Modelling conventions:

* time.Time is an Int (nanoseconds on one time line), time.Duration is an Int;
  Before and After are the strict orders, Add is addition.
* Go int (failures, the configured limits, slice lengths) is Int or Nat without
  wrap-around: failures grows by one per loop iteration at most and lengths are
  bounded by memory, so 2^63 is out of reach.
* metainfo.Hash (a [20]byte array, used only through ==) is its value as Nat.
* a pointer into a slice (what getAnnounce and getRemote return) is the index of
  the element; a write through the pointer is List.modify at that index.
* the locks are not modelled: Announce, Subscribe and one iteration of the loop of
  start are atomic steps, and the readings of time.Now() inside one such step are
  one instant now.
* Server.send (an HTTP POST) is an oracle send addr data : Bool, true when the
  returned error is nil; url.Parse is an oracle parseOk : String → Bool, true when
  it returns no error.
* the reachable states are the results of run, from New, over sequences of steps:
  a call of Announce, a call of Subscribe, or one iteration of the loop of start.
-/

namespace Hook

/-! ## The program -/

/-- Config settings (type Config). -/
structure Config where
  RemoteOnHoldMaxTimeout : Int
  MaxFailures : Int
  MaxRemotes : Int
  MinRemoteInterval : Int
  AnnounceMaxTimeout : Int
  MaxAnnounces : Int
deriving DecidableEq, Repr

/-- A subscriber (type remote); the two pointers to time.Time are options. -/
structure remote where
  addr : String
  lastCall : Option Int
  interval : Int
  failures : Int
  onHold : Option Int
deriving DecidableEq, Repr

/-- A recorded announce (type announce). -/
structure announce where
  infoHash : Nat
  lastAnnounce : Int
deriving DecidableEq, Repr

/-- The server state (type Server) without its two locks. -/
structure Server where
  announces : List announce
  remotes : List remote
  config : Config
deriving DecidableEq, Repr

/-- The errors returned by Announce and Subscribe. -/
inductive Err where
  | parse
  | intervalTooShort
  | tryAgainLater
deriving DecidableEq, Repr

/-- One nanosecond-based second, time.Second. -/
def second : Int := 1000000000

/-- One hour, time.Hour. -/
def hour : Int := 3600 * second

/-- DefaultConfig for the server. -/
def DefaultConfig : Config where
  RemoteOnHoldMaxTimeout := hour * 24 * 3
  MaxFailures := 5
  MaxRemotes := 1
  AnnounceMaxTimeout := hour * 24 * 10
  MinRemoteInterval := hour
  MaxAnnounces := 10000000

/-- New server: empty slices, the given configuration or the default one. -/
def New (c : Option Config) : Server :=
  match c with
  | none => ⟨[], [], DefaultConfig⟩
  | some cfg => ⟨[], [], cfg⟩

/-- The loop of collectAnnounces: append the hash of every announce seen after since. -/
def collectAnnounces (anns : List announce) (since : Int) : List Nat :=
  anns.foldl (fun ret a => if since < a.lastAnnounce then ret ++ [a.infoHash] else ret) []

/-- hasAnnounce: is there an announce with this hash. -/
def hasAnnounce : List announce → Nat → Bool
  | [], _ => false
  | a :: rest, h => if a.infoHash = h then true else hasAnnounce rest h

/-- getAnnounce: the position of the first announce with this hash, none for nil. -/
def getAnnounce : List announce → Nat → Option Nat
  | [], _ => none
  | a :: rest, h => if a.infoHash = h then some 0 else (getAnnounce rest h).map (· + 1)

/-- Announce a info hash at time now; returns the new state and the error, if any.
The counter announcesRcv, declared outside server.go, is not part of the state. -/
def Announce (s : Server) (now : Int) (infoHash : Nat) : Server × Option Err :=
  match getAnnounce s.announces infoHash with
  | some i =>
    ({ s with announces := s.announces.modify (fun a => { a with lastAnnounce := now }) i }, none)
  | none =>
    if (s.announces.length : Int) + 1 > s.config.MaxAnnounces then
      (s, some Err.tryAgainLater)
    else
      ({ s with announces := s.announces ++ [{ infoHash := infoHash, lastAnnounce := now }] }, none)

/-- hasRemote: is there a remote with this address. -/
def hasRemote : List remote → String → Bool
  | [], _ => false
  | r :: rest, a => if r.addr = a then true else hasRemote rest a

/-- getRemote: the position of the first remote with this address, none for nil. -/
def getRemote : List remote → String → Option Nat
  | [], _ => none
  | r :: rest, a => if r.addr = a then some 0 else (getRemote rest a).map (· + 1)

/-- Subscribe a remote to notify announces; parseOk says whether url.Parse accepts. -/
def Subscribe (parseOk : String → Bool) (s : Server) (uri : String) (interval : Int) :
    Server × Option Err :=
  if parseOk uri = false then (s, some Err.parse)
  else if interval < s.config.MinRemoteInterval then (s, some Err.intervalTooShort)
  else
    match getRemote s.remotes uri with
    | some i =>
      let reset := fun (r : remote) => { r with interval := interval, onHold := none, failures := 0 }
      ({ s with remotes := s.remotes.modify reset i }, none)
    | none =>
      if (s.remotes.length : Int) + 1 > s.config.MaxRemotes then
        (s, some Err.tryAgainLater)
      else
        let r : remote := ⟨uri, none, interval, 0, none⟩
        ({ s with remotes := s.remotes ++ [r] }, none)

/-- The reference time of a remote in an iteration at time now (lines 87 to 91). -/
def refTime (now : Int) (r : remote) : Int :=
  match r.lastCall with
  | none => now + (-r.interval)
  | some lc => lc + r.interval

/-- The test of line 92: never called, or the reference time is before now. -/
def isDue (now : Int) (r : remote) : Bool :=
  r.lastCall.isNone || decide (refTime now r < now)

/-- The body of the first loop of start for one remote: the remote afterwards and
the batch handed to send, none when send is not called. -/
def visitRemote (cfg : Config) (anns : List announce) (send : String → List Nat → Bool)
    (now : Int) (r : remote) : remote × Option (List Nat) :=
  if r.onHold.isSome then (r, none)
  else
    let ref := refTime now r
    if isDue now r then
      let announces := collectAnnounces anns ref
      if announces.length > 0 then
        if send r.addr announces then
          ({ r with failures := 0, lastCall := some now }, some announces)
        else
          let failures := r.failures + 1
          let onHold := if failures > cfg.MaxFailures then some now else r.onHold
          ({ r with failures := failures, onHold := onHold }, some announces)
      else (r, none)
    else (r, none)

/-- The remotes after the first loop of start (the per-remote pass): an iteration writes
only through its own pointer r, so the slice keeps its length and order. -/
def passRemotes (cfg : Config) (anns : List announce) (send : String → List Nat → Bool)
    (now : Int) (rs : List remote) : List remote :=
  rs.map (fun r => (visitRemote cfg anns send now r).1)

/-- The calls of send made by the first loop of start, in order: address and batch. -/
def passPosts (cfg : Config) (anns : List announce) (send : String → List Nat → Bool)
    (now : Int) (rs : List remote) : List (String × List Nat) :=
  rs.filterMap (fun r => (visitRemote cfg anns send now r).2.map (fun b => (r.addr, b)))

/-- The test of line 112: on hold and onHold + RemoteOnHoldMaxTimeout is after now. -/
def evictsRemote (cfg : Config) (now : Int) (r : remote) : Bool :=
  match r.onHold with
  | none => false
  | some t => decide (now < t + cfg.RemoteOnHoldMaxTimeout)

/-- The shape shared by the second and third loops of start: for i from the given
bound minus one down to 0, remove the element at index i when the test holds for it
(append(s[:i], s[i+1:]...)); an index out of range stops the loop. -/
def sweepDown {α : Type} (p : α → Bool) : Nat → List α → List α
  | 0, l => l
  | i + 1, l =>
    match l[i]? with
    | none => l
    | some x => if p x then sweepDown p i (l.eraseIdx i) else sweepDown p i l

/-- The second loop of start (lines 110 to 115), started at len(s.remotes) - 1. -/
def evictRemotes (cfg : Config) (now : Int) (rs : List remote) : List remote :=
  sweepDown (evictsRemote cfg now) rs.length rs

/-- The test of line 121: lastAnnounce + AnnounceMaxTimeout is before now. -/
def evictsAnnounce (cfg : Config) (now : Int) (a : announce) : Bool :=
  decide (a.lastAnnounce + cfg.AnnounceMaxTimeout < now)

/-- The third loop of start (lines 119 to 124), started at len(s.announces) - 1. -/
def evictAnnounces (cfg : Config) (now : Int) (as : List announce) : List announce :=
  sweepDown (evictsAnnounce cfg now) as.length as

/-- The remotes after the first two loops of start. -/
def tickRemotes (s : Server) (send : String → List Nat → Bool) (now : Int) : List remote :=
  let rs := passRemotes s.config s.announces send now s.remotes
  evictRemotes s.config now rs

/-- One iteration of the loop of start at time now: the state afterwards and the
calls of send that were made. -/
def tick (s : Server) (send : String → List Nat → Bool) (now : Int) :
    Server × List (String × List Nat) :=
  let remotes := tickRemotes s send now
  let announces := evictAnnounces s.config now s.announces
  (⟨announces, remotes, s.config⟩, passPosts s.config s.announces send now s.remotes)

/-- The search loop shared by getAnnounce and getRemote: the first index whose element
passes the test. -/
def firstIdx {α : Type} (p : α → Bool) : List α → Option Nat
  | [] => none
  | x :: xs => if p x then some 0 else (firstIdx p xs).map (· + 1)

/-- The test configuration of server_test.go. -/
def testConfig : Config where
  AnnounceMaxTimeout := second
  MaxAnnounces := 2
  MaxFailures := 1
  MaxRemotes := 1
  MinRemoteInterval := second * 2
  RemoteOnHoldMaxTimeout := second

/-- The remote of server_test.go, subscribed with an interval of three seconds. -/
def testRemote : remote := ⟨"http://127.0.0.1:8080/notify", none, second * 3, 0, none⟩

/-- The test server with its remote and two announces, recorded at the instants 1 s and
2 s. -/
def testServer : Server := ⟨[⟨1, second⟩, ⟨2, second * 2⟩], [testRemote], testConfig⟩

/-- A remote on hold after three failures, last called at the instant 1 s. -/
def heldRemote : remote :=
  ⟨"http://127.0.0.1:8080/notify", some second, second * 3, 3, some (second * 2)⟩

/-- A full registry (MaxRemotes = 1) whose only remote is on hold. -/
def heldServer : Server := ⟨[], [heldRemote], testConfig⟩

/-- An active remote last called at the instant 1 s, with an interval of 3 s. -/
def calledRemote : remote :=
  ⟨"http://127.0.0.1:8080/notify", some second, second * 3, 0, none⟩

/-- The test remote after one failed delivery (MaxFailures = 1 in the test configuration). -/
def failedRemote : remote := ⟨"http://127.0.0.1:8080/notify", none, second * 3, 1, none⟩

/-- The entry points as steps of the server: a call of Announce at time now, a call of
Subscribe, or one iteration of the loop of start at time now with the outcomes send. -/
inductive Step where
  | announce (now : Int) (infoHash : Nat)
  | subscribe (uri : String) (interval : Int)
  | tick (send : String → List Nat → Bool) (now : Int)

/-- One step: the state afterwards, whether the call returned an error or not, and the
calls of send made by the step. -/
def step (parseOk : String → Bool) (s : Server) : Step → Server × List (String × List Nat)
  | Step.announce now infoHash => ((Announce s now infoHash).1, [])
  | Step.subscribe uri interval => ((Subscribe parseOk s uri interval).1, [])
  | Step.tick send now => tick s send now

/-- A sequence of steps from a state: the final state and all calls of send, in order. -/
def run (parseOk : String → Bool) : Server → List Step → Server × List (String × List Nat)
  | s, [] => (s, [])
  | s, st :: rest =>
    let a := step parseOk s st
    let b := run parseOk a.1 rest
    (b.1, a.2 ++ b.2)

/-- What can happen to one remote while it stays in the registry: a visit by the first
loop of start, or a successful Subscribe for its address (lines 223 to 225). -/
inductive RemoteEvent where
  | visit (anns : List announce) (send : String → List Nat → Bool) (now : Int)
  | resubscribe (interval : Int)

/-- The batches sent to one remote over a sequence of events, in order. -/
def remoteLife (cfg : Config) : remote → List RemoteEvent → List (List Nat)
  | _, [] => []
  | r, RemoteEvent.visit anns send now :: rest =>
    (visitRemote cfg anns send now r).2.toList
      ++ remoteLife cfg (visitRemote cfg anns send now r).1 rest
  | r, RemoteEvent.resubscribe interval :: rest =>
    remoteLife cfg { r with interval := interval, onHold := none, failures := 0 } rest

/-- The calls of server_test.go as steps, followed by one iteration of start in which
the delivery fails: two subscriptions, three announces at the instant 0, an iteration at
1 s. -/
def testSteps : List Step :=
  [Step.subscribe "http://127.0.0.1:8080/notify" (second * 3),
   Step.subscribe "http://127.0.0.1:8081/notify" (second * 3),
   Step.announce 0 1, Step.announce 0 2, Step.announce 0 3,
   Step.tick (fun _ _ => false) second]

/-- The remote after a sequence of events: a visit is the body of the first loop of
start, a re-subscription is the write of lines 223 to 225. -/
def remoteAfter (cfg : Config) : remote → List RemoteEvent → remote
  | r, [] => r
  | r, RemoteEvent.visit anns send now :: rest =>
    remoteAfter cfg (visitRemote cfg anns send now r).1 rest
  | r, RemoteEvent.resubscribe interval :: rest =>
    remoteAfter cfg { r with interval := interval, onHold := none, failures := 0 } rest

/-- The count of consecutive failures in the words of the spec, taken literally: starting
from c, a failed call of send adds one, a successful call sets the count to 0, and
nothing else touches it (a re-subscription in particular does not). -/
def failsSinceSuccess (cfg : Config) : remote → List RemoteEvent → Int → Int
  | _, [], c => c
  | r, RemoteEvent.visit anns send now :: rest, c =>
    let c2 := match (visitRemote cfg anns send now r).2 with
      | none => c
      | some b => if send r.addr b then 0 else c + 1
    failsSinceSuccess cfg (visitRemote cfg anns send now r).1 rest c2
  | r, RemoteEvent.resubscribe interval :: rest, c =>
    failsSinceSuccess cfg { r with interval := interval, onHold := none, failures := 0 } rest c

/-- The count of consecutive failures since the last successful call of send or the last
re-subscription, whichever came last: as failsSinceSuccess, but a re-subscription sets
the count to 0 as well. -/
def failStreak (cfg : Config) : remote → List RemoteEvent → Int → Int
  | _, [], c => c
  | r, RemoteEvent.visit anns send now :: rest, c =>
    let c2 := match (visitRemote cfg anns send now r).2 with
      | none => c
      | some b => if send r.addr b then 0 else c + 1
    failStreak cfg (visitRemote cfg anns send now r).1 rest c2
  | r, RemoteEvent.resubscribe interval :: rest, _ =>
    failStreak cfg { r with interval := interval, onHold := none, failures := 0 } rest 0

/-- A configuration as in server_test.go but with MaxFailures = 5 and announces kept for
an hour. -/
def lenientConfig : Config where
  AnnounceMaxTimeout := hour
  MaxAnnounces := 2
  MaxFailures := 5
  MaxRemotes := 1
  MinRemoteInterval := second * 2
  RemoteOnHoldMaxTimeout := second

/-- A run on the test configuration (MaxFailures = 1): subscribe, one announce, a failed
delivery at 1 s, the same Subscribe again, a failed delivery at 2 s. -/
def resubscribedSteps : List Step :=
  [Step.subscribe "http://127.0.0.1:8080/notify" (second * 3), Step.announce 0 1,
   Step.tick (fun _ _ => false) second,
   Step.subscribe "http://127.0.0.1:8080/notify" (second * 3),
   Step.tick (fun _ _ => false) (second * 2)]

/-- The run resubscribedSteps without its second Subscribe. -/
def twoFailuresSteps : List Step :=
  [Step.subscribe "http://127.0.0.1:8080/notify" (second * 3), Step.announce 0 1,
   Step.tick (fun _ _ => false) second,
   Step.tick (fun _ _ => false) (second * 2)]

/-- A run on lenientConfig: subscribe with interval 2 s, an announce at 0, a successful
delivery at 1 s, an announce at 4 s, a failed delivery at 5 s, the same Subscribe again,
a failed delivery at 6 s. -/
def successThenFailuresSteps : List Step :=
  [Step.subscribe "http://127.0.0.1:8080/notify" (second * 2), Step.announce 0 1,
   Step.tick (fun _ _ => true) second, Step.announce (second * 4) 2,
   Step.tick (fun _ _ => false) (second * 5),
   Step.subscribe "http://127.0.0.1:8080/notify" (second * 2),
   Step.tick (fun _ _ => false) (second * 6)]

/-- The events of successThenFailuresSteps after the successful delivery, as seen by the
remote: a failed call, the re-subscription, a failed call. -/
def failuresAroundResubscribe : List RemoteEvent :=
  [RemoteEvent.visit [⟨2, second * 4⟩] (fun _ _ => false) (second * 5),
   RemoteEvent.resubscribe (second * 2),
   RemoteEvent.visit [⟨2, second * 4⟩] (fun _ _ => false) (second * 6)]

/-- The remote of successThenFailuresSteps right after its successful delivery at 1 s. -/
def servedRemote : remote := ⟨"http://127.0.0.1:8080/notify", some second, second * 2, 0, none⟩

/-! ## Facts about the loops -/

theorem collect_fold (since : Int) (anns : List announce) (acc : List Nat) :
    anns.foldl (fun ret a => if since < a.lastAnnounce then ret ++ [a.infoHash] else ret) acc
      = acc ++ (anns.filter (fun a => decide (since < a.lastAnnounce))).map announce.infoHash := by
  induction anns generalizing acc with
  | nil => simp
  | cons a rest ih =>
    simp only [List.foldl_cons, ih, List.filter_cons]
    by_cases h : since < a.lastAnnounce <;> simp [h]

theorem collectAnnounces_eq (anns : List announce) (since : Int) :
    collectAnnounces anns since
      = (anns.filter (fun a => decide (since < a.lastAnnounce))).map announce.infoHash := by
  simp [collectAnnounces, collect_fold]

theorem sweepDown_take {α : Type} (p : α → Bool) (i : Nat) (l : List α) (hi : i ≤ l.length) :
    sweepDown p i l = (l.take i).filter (fun x => !p x) ++ l.drop i := by
  induction i generalizing l with
  | zero => simp [sweepDown]
  | succ i ih =>
    have hlt : i < l.length := hi
    have hget : l[i]? = some l[i] := List.getElem?_eq_getElem hlt
    have htake : l.take (i + 1) = l.take i ++ [l[i]] := by
      rw [List.take_succ, hget]; rfl
    have hdrop : l.drop i = l[i] :: l.drop (i + 1) := List.drop_eq_getElem_cons hlt
    simp only [sweepDown, hget]
    by_cases hp : p l[i] = true
    · have hlen : i ≤ (l.eraseIdx i).length := by
        rw [List.length_eraseIdx_of_lt hlt]; omega
      rw [if_pos hp, ih _ hlen, htake, List.eraseIdx_eq_take_drop_succ]
      have h1 : (l.take i ++ l.drop (i + 1)).take i = l.take i := by
        rw [List.take_append_of_le_length (by simp; omega)]
        simp
      have h2 : (l.take i ++ l.drop (i + 1)).drop i = l.drop (i + 1) := by
        rw [List.drop_append_of_le_length (by simp; omega)]
        simp [List.drop_take]
      have h3 : List.filter (fun x => !p x) [l[i]] = [] := by simp [hp]
      rw [h1, h2, List.filter_append, h3, List.append_nil]
    · have h3 : List.filter (fun x => !p x) [l[i]] = [l[i]] := by simp [hp]
      rw [if_neg hp, ih _ (Nat.le_of_lt hlt), htake, hdrop, List.filter_append, h3,
        List.append_assoc]
      rfl

theorem sweepDown_eq_filter {α : Type} (p : α → Bool) (l : List α) :
    sweepDown p l.length l = l.filter (fun x => !p x) := by
  rw [sweepDown_take p l.length l (Nat.le_refl _)]
  simp

theorem getAnnounce_eq_firstIdx (l : List announce) (h : Nat) :
    getAnnounce l h = firstIdx (fun a => decide (a.infoHash = h)) l := by
  induction l with
  | nil => rfl
  | cons a rest ih => simp [getAnnounce, firstIdx, ih]

theorem getRemote_eq_firstIdx (l : List remote) (a : String) :
    getRemote l a = firstIdx (fun r => decide (r.addr = a)) l := by
  induction l with
  | nil => rfl
  | cons r rest ih => simp [getRemote, firstIdx, ih]

theorem firstIdx_eq_none_iff {α : Type} (p : α → Bool) (l : List α) :
    firstIdx p l = none ↔ ∀ x ∈ l, p x = false := by
  induction l with
  | nil => simp [firstIdx]
  | cons x xs ih =>
    by_cases hp : p x = true
    · simp [firstIdx, hp]
    · simp [firstIdx, hp, ih]

theorem firstIdx_some {α : Type} (p : α → Bool) (l : List α) (i : Nat)
    (h : firstIdx p l = some i) :
    ∃ x, l[i]? = some x ∧ p x = true ∧ ∀ j y, j < i → l[j]? = some y → p y = false := by
  induction l generalizing i with
  | nil => simp [firstIdx] at h
  | cons x xs ih =>
    by_cases hp : p x = true
    · simp only [firstIdx, hp, if_true, Option.some.injEq] at h
      subst h
      exact ⟨x, by simp, hp, fun j y hj => absurd hj (Nat.not_lt_zero j)⟩
    · cases hk : firstIdx p xs with
      | none => simp [firstIdx, hp, hk] at h
      | some k =>
      simp [firstIdx, hp, hk] at h
      subst h
      obtain ⟨y, hy, hpy, hmin⟩ := ih k hk
      refine ⟨y, by simpa using hy, hpy, ?_⟩
      intro j z hj hz
      cases j with
      | zero =>
        simp only [List.getElem?_cons_zero, Option.some.injEq] at hz
        subst hz
        simpa using hp
      | succ j =>
        simp only [List.getElem?_cons_succ] at hz
        exact hmin j z (by omega) hz

theorem firstIdx_isSome_of_mem {α : Type} (p : α → Bool) (l : List α) (x : α) (hx : x ∈ l)
    (hp : p x = true) : ∃ i, firstIdx p l = some i := by
  cases h : firstIdx p l with
  | some i => exact ⟨i, rfl⟩
  | none =>
    have := (firstIdx_eq_none_iff p l).1 h x hx
    rw [hp] at this
    exact absurd this (by decide)

/-- On a list with distinct addresses, the calls of a pass that go to the address of a
member r are the single call made for r. -/
theorem posts_to_addr (f : remote → Option (List Nat)) (l : List remote)
    (hnd : (l.map remote.addr).Nodup) (r : remote) (hr : r ∈ l) (b : List Nat)
    (hf : f r = some b) :
    (l.filterMap (fun x => (f x).map (fun d => (x.addr, d)))).filter
      (fun q => decide (q.1 = r.addr)) = [(r.addr, b)] := by
  have hnone : ∀ (xs : List remote), r.addr ∉ xs.map remote.addr →
      (xs.filterMap (fun x => (f x).map (fun d => (x.addr, d)))).filter
        (fun q => decide (q.1 = r.addr)) = [] := by
    intro xs hxs
    rw [List.filter_eq_nil_iff]
    intro q hq
    rw [List.mem_filterMap] at hq
    obtain ⟨x, hx, hfx⟩ := hq
    rw [Option.map_eq_some'] at hfx
    obtain ⟨d, _, rfl⟩ := hfx
    have : x.addr ≠ r.addr := fun he => hxs (he ▸ List.mem_map_of_mem remote.addr hx)
    simpa using this
  induction l with
  | nil => cases hr
  | cons x xs ih =>
    rw [List.map_cons, List.nodup_cons] at hnd
    rcases List.mem_cons.1 hr with rfl | hmem
    · simp only [List.filterMap_cons, hf, Option.map_some']
      rw [List.filter_cons_of_pos (by simp), hnone xs hnd.1]
    · have hne : x.addr ≠ r.addr := fun he =>
        hnd.1 (he ▸ List.mem_map_of_mem remote.addr hmem)
      cases hfx : f x with
      | none => simp only [List.filterMap_cons, hfx, Option.map_none']; exact ih hnd.2 hmem
      | some d =>
        simp only [List.filterMap_cons, hfx, Option.map_some']
        rw [List.filter_cons_of_neg (by simpa using hne)]
        exact ih hnd.2 hmem

theorem getAnnounce_eq_none_iff (l : List announce) (h : Nat) :
    getAnnounce l h = none ↔ ∀ a ∈ l, a.infoHash ≠ h := by
  rw [getAnnounce_eq_firstIdx, firstIdx_eq_none_iff]
  simp

theorem getRemote_eq_none_iff (l : List remote) (a : String) :
    getRemote l a = none ↔ ∀ r ∈ l, r.addr ≠ a := by
  rw [getRemote_eq_firstIdx, firstIdx_eq_none_iff]
  simp

/-- What visitRemote does with an active remote that is due and has a non-empty batch. -/
theorem visitRemote_attempt (cfg : Config) (anns : List announce)
    (send : String → List Nat → Bool) (now : Int) (r : remote)
    (hact : r.onHold = none) (hdue : isDue now r = true)
    (hne : collectAnnounces anns (refTime now r) ≠ []) :
    visitRemote cfg anns send now r =
      if send r.addr (collectAnnounces anns (refTime now r)) then
        ({ r with failures := 0, lastCall := some now },
          some (collectAnnounces anns (refTime now r)))
      else
        ({ r with failures := r.failures + 1,
                  onHold := if r.failures + 1 > cfg.MaxFailures then some now else r.onHold },
          some (collectAnnounces anns (refTime now r))) := by
  have hlen : 0 < (collectAnnounces anns (refTime now r)).length :=
    List.length_pos.2 hne
  simp [visitRemote, hact, hdue, hlen]

theorem getAnnounce_some (l : List announce) (h : Nat) (i : Nat)
    (hg : getAnnounce l h = some i) :
    ∃ a, l[i]? = some a ∧ a.infoHash = h ∧
      ∀ j y, j < i → l[j]? = some y → y.infoHash ≠ h := by
  rw [getAnnounce_eq_firstIdx] at hg
  obtain ⟨a, ha, hpa, hmin⟩ := firstIdx_some _ l i hg
  refine ⟨a, ha, by simpa using hpa, ?_⟩
  intro j y hj hy
  simpa using hmin j y hj hy

theorem getRemote_some (l : List remote) (a : String) (i : Nat)
    (hg : getRemote l a = some i) :
    ∃ r, l[i]? = some r ∧ r.addr = a ∧
      ∀ j y, j < i → l[j]? = some y → y.addr ≠ a := by
  rw [getRemote_eq_firstIdx] at hg
  obtain ⟨r, hr, hpr, hmin⟩ := firstIdx_some _ l i hg
  refine ⟨r, hr, by simpa using hpr, ?_⟩
  intro j y hj hy
  simpa using hmin j y hj hy

/-- Writing lastAnnounce through a pointer leaves the hashes of the slice as they are. -/
theorem map_infoHash_refresh (l : List announce) (i : Nat) (t : Int) :
    (l.modify (fun a => { a with lastAnnounce := t }) i).map announce.infoHash
      = l.map announce.infoHash := by
  induction l generalizing i with
  | nil => simp
  | cons a rest ih =>
    cases i with
    | zero => simp
    | succ k => simp [ih k]

/-- On a slice with distinct hashes, after the announce at index i (with hash h) was
refreshed to t, the entries with hash h are the single entry (h, t). -/
theorem filter_hash_refresh (l : List announce) (i : Nat) (t : Int) (h : Nat) (x : announce)
    (hnd : (l.map announce.infoHash).Nodup) (hx : l[i]? = some x) (hh : x.infoHash = h) :
    (l.modify (fun a => { a with lastAnnounce := t }) i).filter
      (fun a => decide (a.infoHash = h)) = [⟨h, t⟩] := by
  induction l generalizing i with
  | nil => simp at hx
  | cons y ys ih =>
    rw [List.map_cons, List.nodup_cons] at hnd
    cases i with
    | zero =>
      simp only [List.getElem?_cons_zero, Option.some.injEq] at hx
      subst hx
      have hnil : ys.filter (fun a => decide (a.infoHash = h)) = [] := by
        rw [List.filter_eq_nil_iff]
        intro a ha
        have : a.infoHash ≠ h := fun he =>
          hnd.1 (hh ▸ he ▸ List.mem_map_of_mem announce.infoHash ha)
        simpa using this
      rw [List.modify_zero_cons, List.filter_cons_of_pos (by simpa using hh), hnil, hh]
    | succ k =>
      simp only [List.getElem?_cons_succ] at hx
      have hxm : x ∈ ys := List.getElem?_mem hx
      have hne : y.infoHash ≠ h := fun he =>
        hnd.1 (he ▸ hh ▸ List.mem_map_of_mem announce.infoHash hxm)
      rw [List.modify_succ_cons, List.filter_cons_of_neg (by simpa using hne)]
      exact ih k hnd.2 hx

/-- A visit either leaves the remote alone and sends nothing, or the remote was active
and send was called. -/
theorem visitRemote_cases (cfg : Config) (anns : List announce)
    (send : String → List Nat → Bool) (now : Int) (r : remote) :
    visitRemote cfg anns send now r = (r, none) ∨
    (r.onHold = none ∧ isDue now r = true ∧ collectAnnounces anns (refTime now r) ≠ [] ∧
      (visitRemote cfg anns send now r).2 = some (collectAnnounces anns (refTime now r))) := by
  by_cases hact : r.onHold = none
  · by_cases hdue : isDue now r = true
    · by_cases hne : collectAnnounces anns (refTime now r) = []
      · left; simp [visitRemote, hact, hdue, hne]
      · right
        refine ⟨hact, hdue, hne, ?_⟩
        rw [visitRemote_attempt cfg anns send now r hact hdue hne]
        split <;> rfl
    · left; simp [visitRemote, hact, hdue]
  · left
    have : r.onHold.isSome = true := by
      cases h : r.onHold with
      | none => exact absurd h hact
      | some t => rfl
    simp [visitRemote, this]

/-- Whether send is called for a remote, and with what, does not depend on send. -/
theorem visitRemote_snd (cfg : Config) (anns : List announce)
    (send : String → List Nat → Bool) (now : Int) (r : remote) :
    (visitRemote cfg anns send now r).2
      = if r.onHold = none ∧ isDue now r = true ∧ collectAnnounces anns (refTime now r) ≠ []
        then some (collectAnnounces anns (refTime now r)) else none := by
  rcases visitRemote_cases cfg anns send now r with h | ⟨hact, hdue, hne, h2⟩
  · by_cases hc : r.onHold = none ∧ isDue now r = true ∧
        collectAnnounces anns (refTime now r) ≠ []
    · have h3 := visitRemote_attempt cfg anns send now r hc.1 hc.2.1 hc.2.2
      rw [h] at h3
      split at h3 <;> simp at h3
    · rw [h, if_neg hc]
  · rw [h2, if_pos ⟨hact, hdue, hne⟩]

/-- A remote for which no call of send is made comes out of the visit as it went in. -/
theorem visitRemote_fst_of_no_post (cfg : Config) (anns : List announce)
    (send : String → List Nat → Bool) (now : Int) (r : remote)
    (h : (visitRemote cfg anns send now r).2 = none) :
    (visitRemote cfg anns send now r).1 = r := by
  rcases visitRemote_cases cfg anns send now r with h1 | ⟨_, _, _, h2⟩
  · rw [h1]
  · rw [h2] at h
    cases h

theorem visitRemote_addr (cfg : Config) (anns : List announce)
    (send : String → List Nat → Bool) (now : Int) (r : remote) :
    (visitRemote cfg anns send now r).1.addr = r.addr := by
  rcases visitRemote_cases cfg anns send now r with h1 | ⟨hact, hdue, hne, _⟩
  · rw [h1]
  · rw [visitRemote_attempt cfg anns send now r hact hdue hne]
    split <;> rfl

theorem getElem?_passRemotes (cfg : Config) (anns : List announce)
    (send : String → List Nat → Bool) (now : Int) (rs : List remote) (i : Nat) :
    (passRemotes cfg anns send now rs)[i]?
      = (rs[i]?).map (fun r => (visitRemote cfg anns send now r).1) := by
  simp [passRemotes]

theorem mem_passPosts (cfg : Config) (anns : List announce)
    (send : String → List Nat → Bool) (now : Int) (rs : List remote) (q : String × List Nat) :
    q ∈ passPosts cfg anns send now rs ↔
      ∃ r ∈ rs, q.1 = r.addr ∧ (visitRemote cfg anns send now r).2 = some q.2 := by
  simp only [passPosts, List.mem_filterMap, Option.map_eq_some']
  constructor
  · rintro ⟨r, hr, d, hd, rfl⟩
    exact ⟨r, hr, rfl, hd⟩
  · rintro ⟨r, hr, h1, h2⟩
    exact ⟨r, hr, q.2, h2, by rw [← h1]⟩

theorem tick_remotes_eq (s : Server) (send : String → List Nat → Bool) (now : Int) :
    (tick s send now).1.remotes
      = (passRemotes s.config s.announces send now s.remotes).filter
          (fun r => !evictsRemote s.config now r) := by
  simp only [tick, tickRemotes, evictRemotes]
  exact sweepDown_eq_filter _ _

theorem tick_announces_eq (s : Server) (send : String → List Nat → Bool) (now : Int) :
    (tick s send now).1.announces
      = s.announces.filter (fun a => !evictsAnnounce s.config now a) := by
  simp only [tick, evictAnnounces]
  exact sweepDown_eq_filter _ _

theorem tick_config (s : Server) (send : String → List Nat → Bool) (now : Int) :
    (tick s send now).1.config = s.config := rfl

/-- A property kept by every step holds after every run. -/
theorem run_invariant (parseOk : String → Bool) (P : Server → Prop)
    (hstep : ∀ s st, P s → P (step parseOk s st).1) (steps : List Step) (s : Server)
    (h : P s) : P (run parseOk s steps).1 := by
  induction steps generalizing s with
  | nil => exact h
  | cons st rest ih => exact ih _ (hstep s st h)

/-- The three outcomes of Announce on the state. -/
theorem Announce_fst (s : Server) (now : Int) (h : Nat) :
    (Announce s now h).1.config = s.config ∧ (Announce s now h).1.remotes = s.remotes ∧
    ((Announce s now h).1.announces = s.announces ∨
      (∃ i, (Announce s now h).1.announces
        = s.announces.modify (fun a => { a with lastAnnounce := now }) i) ∨
      ((∀ a ∈ s.announces, a.infoHash ≠ h) ∧
        (s.announces.length : Int) + 1 ≤ s.config.MaxAnnounces ∧
        (Announce s now h).1.announces = s.announces ++ [⟨h, now⟩])) := by
  cases hg : getAnnounce s.announces h with
  | some i =>
    refine ⟨by simp [Announce, hg], by simp [Announce, hg], Or.inr (Or.inl ⟨i, ?_⟩)⟩
    simp [Announce, hg]
  | none =>
    have hall := (getAnnounce_eq_none_iff s.announces h).1 hg
    by_cases hcap : (s.announces.length : Int) + 1 > s.config.MaxAnnounces
    · have hres : Announce s now h = (s, some Err.tryAgainLater) := by
        simp [Announce, hg, hcap]
      rw [hres]
      exact ⟨rfl, rfl, Or.inl rfl⟩
    · refine ⟨by simp [Announce, hg, hcap], by simp [Announce, hg, hcap],
        Or.inr (Or.inr ⟨hall, not_lt.1 hcap, ?_⟩)⟩
      simp [Announce, hg, hcap]

/-- The three outcomes of Subscribe on the state. -/
theorem Subscribe_fst (parseOk : String → Bool) (s : Server) (uri : String) (interval : Int) :
    (Subscribe parseOk s uri interval).1.config = s.config ∧
    (Subscribe parseOk s uri interval).1.announces = s.announces ∧
    ((Subscribe parseOk s uri interval).1.remotes = s.remotes ∨
      (∃ i, (Subscribe parseOk s uri interval).1.remotes
        = s.remotes.modify
            (fun r => { r with interval := interval, onHold := none, failures := 0 }) i) ∨
      ((∀ r ∈ s.remotes, r.addr ≠ uri) ∧
        (s.remotes.length : Int) + 1 ≤ s.config.MaxRemotes ∧
        (Subscribe parseOk s uri interval).1.remotes
          = s.remotes ++ [⟨uri, none, interval, 0, none⟩])) := by
  by_cases hp : parseOk uri = true
  · by_cases hi : interval < s.config.MinRemoteInterval
    · have hres : Subscribe parseOk s uri interval = (s, some Err.intervalTooShort) := by
        simp [Subscribe, hp, hi]
      rw [hres]
      exact ⟨rfl, rfl, Or.inl rfl⟩
    · cases hg : getRemote s.remotes uri with
      | some i =>
        refine ⟨by simp [Subscribe, hp, hi, hg], by simp [Subscribe, hp, hi, hg],
          Or.inr (Or.inl ⟨i, ?_⟩)⟩
        simp [Subscribe, hp, hi, hg]
      | none =>
        have hall := (getRemote_eq_none_iff s.remotes uri).1 hg
        by_cases hcap : (s.remotes.length : Int) + 1 > s.config.MaxRemotes
        · have hres : Subscribe parseOk s uri interval = (s, some Err.tryAgainLater) := by
            simp [Subscribe, hp, hi, hg, hcap]
          rw [hres]
          exact ⟨rfl, rfl, Or.inl rfl⟩
        · refine ⟨by simp [Subscribe, hp, hi, hg, hcap], by simp [Subscribe, hp, hi, hg, hcap],
            Or.inr (Or.inr ⟨hall, not_lt.1 hcap, ?_⟩)⟩
          simp [Subscribe, hp, hi, hg, hcap]
  · have hres : Subscribe parseOk s uri interval = (s, some Err.parse) := by
      simp [Subscribe, hp]
    rw [hres]
    exact ⟨rfl, rfl, Or.inl rfl⟩

theorem map_addr_reset (l : List remote) (i : Nat) (interval : Int) :
    (l.modify (fun r => { r with interval := interval, onHold := none, failures := 0 }) i).map
      remote.addr = l.map remote.addr := by
  induction l generalizing i with
  | nil => simp
  | cons a rest ih =>
    cases i with
    | zero => simp
    | succ k => simp [ih k]

theorem map_addr_passRemotes (cfg : Config) (anns : List announce)
    (send : String → List Nat → Bool) (now : Int) (rs : List remote) :
    (passRemotes cfg anns send now rs).map remote.addr = rs.map remote.addr := by
  simp only [passRemotes, List.map_map]
  apply List.map_congr_left
  intro r _
  exact visitRemote_addr cfg anns send now r

/-- An active remote comes out of a visit active or put on hold at the time of the visit. -/
theorem visitRemote_onHold (cfg : Config) (anns : List announce)
    (send : String → List Nat → Bool) (now : Int) (r : remote) (hact : r.onHold = none) :
    (visitRemote cfg anns send now r).1.onHold = none ∨
    (visitRemote cfg anns send now r).1.onHold = some now := by
  rcases visitRemote_cases cfg anns send now r with h | ⟨_, hdue, hne, _⟩
  · rw [h]; exact Or.inl hact
  · rw [visitRemote_attempt cfg anns send now r hact hdue hne, hact]
    by_cases hs : send r.addr (collectAnnounces anns (refTime now r)) = true
    · rw [if_pos hs]; exact Or.inl rfl
    · rw [if_neg hs]
      by_cases hmax : r.failures + 1 > cfg.MaxFailures
      · right; simp [hmax]
      · left; simp [hmax]

/-- The length bounds are kept by every step. -/
theorem step_within_limits (parseOk : String → Bool) (cfg : Config) (s : Server) (st : Step)
    (h : s.config = cfg ∧ (s.announces.length : Int) ≤ cfg.MaxAnnounces ∧
      (s.remotes.length : Int) ≤ cfg.MaxRemotes) :
    (step parseOk s st).1.config = cfg ∧
    ((step parseOk s st).1.announces.length : Int) ≤ cfg.MaxAnnounces ∧
    ((step parseOk s st).1.remotes.length : Int) ≤ cfg.MaxRemotes := by
  obtain ⟨hc, ha, hr⟩ := h
  cases st with
  | announce now infoHash =>
    obtain ⟨h1, h2, h3⟩ := Announce_fst s now infoHash
    refine ⟨h1.trans hc, ?_, by show ((Announce s now infoHash).1.remotes.length : Int) ≤ _; rw [h2]; exact hr⟩
    show ((Announce s now infoHash).1.announces.length : Int) ≤ _
    rcases h3 with h3 | ⟨i, h3⟩ | ⟨_, hcap, h3⟩
    · rw [h3]; exact ha
    · rw [h3, List.length_modify]; exact ha
    · rw [h3, List.length_append, ← hc]
      simpa using hcap
  | subscribe uri interval =>
    obtain ⟨h1, h2, h3⟩ := Subscribe_fst parseOk s uri interval
    refine ⟨h1.trans hc, by show ((Subscribe parseOk s uri interval).1.announces.length : Int) ≤ _; rw [h2]; exact ha, ?_⟩
    show ((Subscribe parseOk s uri interval).1.remotes.length : Int) ≤ _
    rcases h3 with h3 | ⟨i, h3⟩ | ⟨_, hcap, h3⟩
    · rw [h3]; exact hr
    · rw [h3, List.length_modify]; exact hr
    · rw [h3, List.length_append, ← hc]
      simpa using hcap
  | tick send now =>
    refine ⟨hc, ?_, ?_⟩
    · show ((tick s send now).1.announces.length : Int) ≤ _
      rw [tick_announces_eq]
      have := List.length_filter_le (fun a => !evictsAnnounce s.config now a) s.announces
      omega
    · show ((tick s send now).1.remotes.length : Int) ≤ _
      rw [tick_remotes_eq]
      have h1 := List.length_filter_le (fun r => !evictsRemote s.config now r)
        (passRemotes s.config s.announces send now s.remotes)
      have h2 : (passRemotes s.config s.announces send now s.remotes).length
          = s.remotes.length := by simp [passRemotes]
      omega

/-- Distinct hashes and distinct addresses are kept by every step. -/
theorem step_keys_unique (parseOk : String → Bool) (s : Server) (st : Step)
    (h : (s.announces.map announce.infoHash).Nodup ∧ (s.remotes.map remote.addr).Nodup) :
    ((step parseOk s st).1.announces.map announce.infoHash).Nodup ∧
    ((step parseOk s st).1.remotes.map remote.addr).Nodup := by
  obtain ⟨ha, hr⟩ := h
  cases st with
  | announce now infoHash =>
    obtain ⟨_, h2, h3⟩ := Announce_fst s now infoHash
    refine ⟨?_, by show ((Announce s now infoHash).1.remotes.map remote.addr).Nodup; rw [h2]; exact hr⟩
    show ((Announce s now infoHash).1.announces.map announce.infoHash).Nodup
    rcases h3 with h3 | ⟨i, h3⟩ | ⟨hall, _, h3⟩
    · rw [h3]; exact ha
    · rw [h3, map_infoHash_refresh]; exact ha
    · rw [h3, List.map_append, List.nodup_append]
      refine ⟨ha, by simp, ?_⟩
      intro k hk1 hk2
      simp only [List.map_cons, List.map_nil, List.mem_singleton] at hk2
      obtain ⟨a, ha1, hak⟩ := List.mem_map.1 hk1
      exact hall a ha1 (hak.trans hk2)
  | subscribe uri interval =>
    obtain ⟨_, h2, h3⟩ := Subscribe_fst parseOk s uri interval
    refine ⟨by show ((Subscribe parseOk s uri interval).1.announces.map announce.infoHash).Nodup; rw [h2]; exact ha, ?_⟩
    show ((Subscribe parseOk s uri interval).1.remotes.map remote.addr).Nodup
    rcases h3 with h3 | ⟨i, h3⟩ | ⟨hall, _, h3⟩
    · rw [h3]; exact hr
    · rw [h3, map_addr_reset]; exact hr
    · rw [h3, List.map_append, List.nodup_append]
      refine ⟨hr, by simp, ?_⟩
      intro k hk1 hk2
      simp only [List.map_cons, List.map_nil, List.mem_singleton] at hk2
      obtain ⟨r, hr1, hrk⟩ := List.mem_map.1 hk1
      exact hall r hr1 (hrk.trans hk2)
  | tick send now =>
    constructor
    · show ((tick s send now).1.announces.map announce.infoHash).Nodup
      rw [tick_announces_eq]
      exact ha.sublist ((List.filter_sublist _).map _)
    · show ((tick s send now).1.remotes.map remote.addr).Nodup
      rw [tick_remotes_eq]
      have hsub := ((List.filter_sublist (p := fun r => !evictsRemote s.config now r)
        (passRemotes s.config s.announces send now s.remotes)).map remote.addr)
      rw [map_addr_passRemotes] at hsub
      exact hr.sublist hsub

/-- With a positive RemoteOnHoldMaxTimeout, a remote that is on hold since the time of
the iteration is removed by the second loop. -/
theorem evictsRemote_of_held_now (cfg : Config) (now : Int) (r : remote)
    (hT : 0 < cfg.RemoteOnHoldMaxTimeout) (h : r.onHold = some now) :
    evictsRemote cfg now r = true := by
  simp [evictsRemote, h, hT]

/-- With a positive RemoteOnHoldMaxTimeout, every step keeps all remotes active. -/
theorem step_all_active (parseOk : String → Bool) (cfg : Config) (s : Server) (st : Step)
    (hT : 0 < cfg.RemoteOnHoldMaxTimeout)
    (h : s.config = cfg ∧ ∀ r ∈ s.remotes, r.onHold = none) :
    (step parseOk s st).1.config = cfg ∧ ∀ r ∈ (step parseOk s st).1.remotes, r.onHold = none := by
  obtain ⟨hc, hall⟩ := h
  cases st with
  | announce now infoHash =>
    obtain ⟨h1, h2, _⟩ := Announce_fst s now infoHash
    refine ⟨h1.trans hc, ?_⟩
    show ∀ r ∈ (Announce s now infoHash).1.remotes, r.onHold = none
    rw [h2]; exact hall
  | subscribe uri interval =>
    obtain ⟨h1, _, h3⟩ := Subscribe_fst parseOk s uri interval
    refine ⟨h1.trans hc, ?_⟩
    show ∀ r ∈ (Subscribe parseOk s uri interval).1.remotes, r.onHold = none
    rcases h3 with h3 | ⟨i, h3⟩ | ⟨_, _, h3⟩
    · rw [h3]; exact hall
    · rw [h3]
      intro r hr
      obtain ⟨j, hj⟩ := List.mem_iff_getElem?.1 hr
      by_cases hij : i = j
      · subst hij
        rw [List.getElem?_modify_eq] at hj
        obtain ⟨x, _, rfl⟩ := Option.map_eq_some'.1 hj
        rfl
      · rw [List.getElem?_modify_ne _ _ hij] at hj
        exact hall r (List.getElem?_mem hj)
    · rw [h3]
      intro r hr
      rcases List.mem_append.1 hr with h | h
      · exact hall r h
      · rw [List.mem_singleton.1 h]
  | tick send now =>
    refine ⟨hc, ?_⟩
    show ∀ r ∈ (tick s send now).1.remotes, r.onHold = none
    rw [tick_remotes_eq]
    intro r hr
    obtain ⟨hr1, hr2⟩ := List.mem_filter.1 hr
    obtain ⟨x, hx, rfl⟩ := List.mem_map.1 hr1
    rcases visitRemote_onHold s.config s.announces send now x (hall x hx) with h | h
    · exact h
    · have := evictsRemote_of_held_now s.config now _ (hc ▸ hT) h
      rw [this] at hr2
      cases hr2

theorem mem_collectAnnounces (anns : List announce) (since : Int) (h : Nat) :
    h ∈ collectAnnounces anns since ↔ ∃ a ∈ anns, a.infoHash = h ∧ since < a.lastAnnounce := by
  rw [collectAnnounces_eq, List.mem_map]
  constructor
  · rintro ⟨a, ha, rfl⟩
    rw [List.mem_filter] at ha
    exact ⟨a, ha.1, rfl, by simpa using ha.2⟩
  · rintro ⟨a, ha, rfl, hlt⟩
    exact ⟨a, List.mem_filter.2 ⟨ha, by simpa using hlt⟩, rfl⟩

theorem collectAnnounces_eq_nil (anns : List announce) (since : Int)
    (h : ∀ a ∈ anns, a.lastAnnounce ≤ since) : collectAnnounces anns since = [] := by
  rw [collectAnnounces_eq, List.map_eq_nil_iff, List.filter_eq_nil_iff]
  intro a ha
  simpa using h a ha

/-- A visit leaves the interval alone, and lastCall too unless it sets it to the time of
the visit, which it does only when the reference time was before that time. -/
theorem visitRemote_lastCall (cfg : Config) (anns : List announce)
    (send : String → List Nat → Bool) (now : Int) (r : remote) (lc : Int)
    (hlc : r.lastCall = some lc) :
    (visitRemote cfg anns send now r).1.interval = r.interval ∧
    ((visitRemote cfg anns send now r).1.lastCall = some lc ∨
      ((visitRemote cfg anns send now r).1.lastCall = some now ∧ lc + r.interval < now)) := by
  rcases visitRemote_cases cfg anns send now r with h | ⟨hact, hdue, hne, _⟩
  · rw [h]; exact ⟨rfl, Or.inl hlc⟩
  · have hlt : lc + r.interval < now := by
      simpa [isDue, refTime, hlc] using hdue
    rw [visitRemote_attempt cfg anns send now r hact hdue hne]
    by_cases hs : send r.addr (collectAnnounces anns (refTime now r)) = true
    · rw [if_pos hs]; exact ⟨rfl, Or.inr ⟨rfl, hlt⟩⟩
    · rw [if_neg hs]; exact ⟨rfl, Or.inl hlc⟩

/-- An iteration over a single active remote whose batch is empty sends nothing and
leaves the remote as it is. -/
theorem tick_quiet (s : Server) (send : String → List Nat → Bool) (now : Int) (r : remote)
    (hrem : s.remotes = [r]) (hact : r.onHold = none)
    (hq : collectAnnounces s.announces (refTime now r) = []) :
    (tick s send now).2 = [] ∧ (tick s send now).1.remotes = [r] := by
  have hv : visitRemote s.config s.announces send now r = (r, none) := by
    rcases visitRemote_cases s.config s.announces send now r with h | ⟨_, _, hne, _⟩
    · exact h
    · exact absurd hq hne
  have hev : evictsRemote s.config now r = false := by simp [evictsRemote, hact]
  constructor
  · show passPosts _ _ _ _ _ = []
    simp [passPosts, hrem, hv]
  · rw [tick_remotes_eq]
    simp [passRemotes, hrem, hv, hev]

/-- Once the single remote of the registry was called at lc and no stored announce is
newer than lc + interval, iterations alone never call send again. -/
theorem run_quiet (parseOk : String → Bool) (r : remote) (lc bound : Int)
    (hlc : r.lastCall = some lc) (hact : r.onHold = none) (hb : bound ≤ lc + r.interval)
    (later : List Step) (s : Server)
    (hticks : ∀ st ∈ later, ∃ sd t, st = Step.tick sd t) (hrem : s.remotes = [r])
    (hanns : ∀ a ∈ s.announces, a.lastAnnounce ≤ bound) :
    (run parseOk s later).2 = [] := by
  induction later generalizing s with
  | nil => rfl
  | cons st rest ih =>
    obtain ⟨sd, t, rfl⟩ := hticks st (List.mem_cons_self _ _)
    have href : refTime t r = lc + r.interval := by simp [refTime, hlc]
    have hq : collectAnnounces s.announces (refTime t r) = [] := by
      apply collectAnnounces_eq_nil
      intro a ha
      rw [href]
      exact le_trans (hanns a ha) hb
    obtain ⟨h1, h2⟩ := tick_quiet s sd t r hrem hact hq
    have hrest := ih (tick s sd t).1 (fun x hx => hticks x (List.mem_cons_of_mem _ hx)) h2
      (by
        intro a ha
        rw [tick_announces_eq] at ha
        exact hanns a (List.mem_filter.1 ha).1)
    show (tick s sd t).2 ++ (run parseOk (tick s sd t).1 rest).2 = []
    rw [h1, hrest]
    rfl

/-- A remote called at lc never gets the hash h in a batch while the stored entries for h
are not newer than la, la is at most lc + I0, and its interval stays at least I0. -/
theorem remoteLife_skips (cfg : Config) (h : Nat) (la I0 : Int) (hI0 : 0 ≤ I0)
    (events : List RemoteEvent) (r : remote) (lc : Int)
    (hlc : r.lastCall = some lc) (hla : la ≤ lc + I0) (hint : I0 ≤ r.interval)
    (hold : ∀ anns send now, RemoteEvent.visit anns send now ∈ events →
      ∀ b ∈ anns, b.infoHash = h → b.lastAnnounce ≤ la)
    (hsub : ∀ i, RemoteEvent.resubscribe i ∈ events → I0 ≤ i) :
    ∀ batch ∈ remoteLife cfg r events, h ∉ batch := by
  induction events generalizing r lc with
  | nil =>
    intro batch hb
    cases hb
  | cons e rest ih =>
    cases e with
    | visit anns send now =>
      intro batch hb
      simp only [remoteLife, List.mem_append] at hb
      rcases hb with hb | hb
      · rw [visitRemote_snd] at hb
        split at hb
        · simp only [Option.toList, List.mem_singleton] at hb
          subst hb
          intro hmem
          obtain ⟨b, hb1, hb2, hb3⟩ := (mem_collectAnnounces _ _ _).1 hmem
          have h1 := hold anns send now (List.mem_cons_self _ _) b hb1 hb2
          have h2 : refTime now r = lc + r.interval := by simp [refTime, hlc]
          rw [h2] at hb3
          omega
        · cases hb
      · obtain ⟨h1, h2⟩ := visitRemote_lastCall cfg anns send now r lc hlc
        rcases h2 with h2 | ⟨h2, h3⟩
        · exact ih _ lc h2 hla (h1 ▸ hint)
            (fun a2 s2 n2 hm => hold a2 s2 n2 (List.mem_cons_of_mem _ hm))
            (fun i hm => hsub i (List.mem_cons_of_mem _ hm)) batch hb
        · exact ih _ now h2 (by omega) (h1 ▸ hint)
            (fun a2 s2 n2 hm => hold a2 s2 n2 (List.mem_cons_of_mem _ hm))
            (fun i hm => hsub i (List.mem_cons_of_mem _ hm)) batch hb
    | resubscribe i =>
      intro batch hb
      simp only [remoteLife] at hb
      exact ih ⟨r.addr, r.lastCall, i, 0, none⟩ lc hlc hla (hsub i (List.mem_cons_self _ _))
        (fun a2 s2 n2 hm => hold a2 s2 n2 (List.mem_cons_of_mem _ hm))
        (fun j hm => hsub j (List.mem_cons_of_mem _ hm)) batch hb

/-- The three things a visit can do: nothing, a successful call, a failed call. -/
theorem visitRemote_outcome (cfg : Config) (anns : List announce)
    (send : String → List Nat → Bool) (now : Int) (r : remote) :
    visitRemote cfg anns send now r = (r, none) ∨
    (r.onHold = none ∧ ∃ b, send r.addr b = true ∧
      visitRemote cfg anns send now r
        = (⟨r.addr, some now, r.interval, 0, none⟩, some b)) ∨
    (r.onHold = none ∧ ∃ b, send r.addr b = false ∧
      visitRemote cfg anns send now r
        = (⟨r.addr, r.lastCall, r.interval, r.failures + 1,
            if r.failures + 1 > cfg.MaxFailures then some now else none⟩, some b)) := by
  rcases visitRemote_cases cfg anns send now r with h | ⟨hact, hdue, hne, _⟩
  · exact Or.inl h
  · right
    have hv := visitRemote_attempt cfg anns send now r hact hdue hne
    cases hs : send r.addr (collectAnnounces anns (refTime now r)) with
    | true =>
      left
      refine ⟨hact, _, hs, ?_⟩
      rw [hv, hs, if_pos rfl, hact]
    | false =>
      right
      refine ⟨hact, _, hs, ?_⟩
      rw [hv, hs, hact]
      simp

/-- The failures field moves exactly as the count of consecutive failures since the last
successful call or re-subscription. -/
theorem remoteAfter_failures (cfg : Config) (events : List RemoteEvent) (r : remote) :
    (remoteAfter cfg r events).failures = failStreak cfg r events r.failures := by
  induction events generalizing r with
  | nil => rfl
  | cons e rest ih =>
    cases e with
    | visit anns send now =>
      simp only [remoteAfter, failStreak]
      rw [ih]
      rcases visitRemote_outcome cfg anns send now r with h | ⟨_, b, hs, h⟩ | ⟨_, b, hs, h⟩
      · rw [h]
      · rw [h]; simp [hs]
      · rw [h]; simp [hs]
    | resubscribe interval =>
      simp only [remoteAfter, failStreak]
      rw [ih]

/-- With MaxFailures not negative, a remote is either active with at most MaxFailures
failures or on hold with exactly MaxFailures + 1, and events keep it so. -/
theorem remoteAfter_hold (cfg : Config) (hmax : 0 ≤ cfg.MaxFailures)
    (events : List RemoteEvent) (r : remote)
    (hinv : (r.onHold = none ∧ 0 ≤ r.failures ∧ r.failures ≤ cfg.MaxFailures) ∨
      (r.onHold.isSome = true ∧ r.failures = cfg.MaxFailures + 1)) :
    ((remoteAfter cfg r events).onHold = none ∧ 0 ≤ (remoteAfter cfg r events).failures ∧
        (remoteAfter cfg r events).failures ≤ cfg.MaxFailures) ∨
      ((remoteAfter cfg r events).onHold.isSome = true ∧
        (remoteAfter cfg r events).failures = cfg.MaxFailures + 1) := by
  induction events generalizing r with
  | nil => exact hinv
  | cons e rest ih =>
    cases e with
    | visit anns send now =>
      simp only [remoteAfter]
      apply ih
      rcases visitRemote_outcome cfg anns send now r with h | ⟨_, b, _, h⟩ | ⟨hact, b, _, h⟩
      · rw [h]; exact hinv
      · rw [h]; exact Or.inl ⟨rfl, le_refl _, hmax⟩
      · rw [h]
        rcases hinv with ⟨_, h0, hle⟩ | ⟨hheld, _⟩
        · by_cases hgt : r.failures + 1 > cfg.MaxFailures
          · right
            refine ⟨by simp [hgt], ?_⟩
            show r.failures + 1 = cfg.MaxFailures + 1
            omega
          · left
            refine ⟨by simp [hgt], ?_, ?_⟩
            · show 0 ≤ r.failures + 1; omega
            · show r.failures + 1 ≤ cfg.MaxFailures; omega
        · rw [hact] at hheld; cases hheld
    | resubscribe interval =>
      simp only [remoteAfter]
      apply ih
      exact Or.inl ⟨rfl, le_refl _, hmax⟩

/-! ## The claims -/

/-- C1: in an iteration at time now, an active remote that was never called is due; if
some stored announce was seen strictly after now - interval, send is called for it with
exactly the hashes of the stored announces seen strictly after now - interval, in stored
order (each once when the stored hashes are distinct), and when the addresses of the
registry are distinct this is the only call of the iteration to its address. -/
theorem C1_never_called_remote_is_served (s : Server) (send : String → List Nat → Bool)
    (now : Int) (r : remote) (hr : r ∈ s.remotes) (hact : r.onHold = none)
    (hnc : r.lastCall = none) :
    isDue now r = true ∧
    ((∃ a ∈ s.announces, now - r.interval < a.lastAnnounce) →
      (visitRemote s.config s.announces send now r).2
        = some ((s.announces.filter
            (fun a => decide (now - r.interval < a.lastAnnounce))).map announce.infoHash) ∧
      ((s.remotes.map remote.addr).Nodup →
        (tick s send now).2.filter (fun q => decide (q.1 = r.addr))
          = [(r.addr, (s.announces.filter
              (fun a => decide (now - r.interval < a.lastAnnounce))).map announce.infoHash)]) ∧
      ((s.announces.map announce.infoHash).Nodup →
        ((s.announces.filter
            (fun a => decide (now - r.interval < a.lastAnnounce))).map
              announce.infoHash).Nodup)) := by
  have hdue : isDue now r = true := by simp [isDue, hnc]
  refine ⟨hdue, ?_⟩
  intro hex
  have href : refTime now r = now - r.interval := by
    simp [refTime, hnc, Int.sub_eq_add_neg]
  have hne : collectAnnounces s.announces (refTime now r) ≠ [] := by
    obtain ⟨a, ha, hlt⟩ := hex
    rw [href, collectAnnounces_eq]
    intro hnil
    have hmem : a.infoHash ∈ (s.announces.filter
        (fun a => decide (now - r.interval < a.lastAnnounce))).map announce.infoHash :=
      List.mem_map_of_mem _ (List.mem_filter.2 ⟨ha, by simpa using hlt⟩)
    rw [hnil] at hmem
    cases hmem
  have hvisit : (visitRemote s.config s.announces send now r).2
      = some ((s.announces.filter
          (fun a => decide (now - r.interval < a.lastAnnounce))).map announce.infoHash) := by
    rw [visitRemote_attempt s.config s.announces send now r hact hdue hne,
      ← collectAnnounces_eq, ← href]
    split <;> rfl
  refine ⟨hvisit, ?_, ?_⟩
  · intro hnd
    exact posts_to_addr (fun x => (visitRemote s.config s.announces send now x).2)
      s.remotes hnd r hr _ hvisit
  · intro hnd
    exact (hnd.sublist ((List.filter_sublist _).map _))

theorem C1_never_called_remote_is_served_witness :
    testRemote ∈ testServer.remotes ∧ testRemote.onHold = none ∧
    testRemote.lastCall = none ∧
    (∃ a ∈ testServer.announces, second * 3 - testRemote.interval < a.lastAnnounce) ∧
    (tick testServer (fun _ _ => true) (second * 3)).2.filter
      (fun q => decide (q.1 = testRemote.addr)) = [(testRemote.addr, [1, 2])] :=
  ⟨by decide, rfl, rfl, ⟨⟨1, second⟩, by decide, by decide⟩,
    ((C1_never_called_remote_is_served testServer (fun _ _ => true) (second * 3) testRemote
      (by decide) rfl rfl).2 ⟨⟨1, second⟩, by decide, by decide⟩).2.1 (by decide)⟩

/-- C2: Announce returns an error exactly when the hash is not stored and
len(announces) + 1 > MaxAnnounces; when it returns an error the state is the one before,
so collectAnnounces gives the same hashes for every threshold. -/
theorem C2_announce_error_iff_full (s : Server) (now : Int) (h : Nat) :
    ((Announce s now h).2.isSome = true ↔
      ((∀ a ∈ s.announces, a.infoHash ≠ h) ∧
        (s.announces.length : Int) + 1 > s.config.MaxAnnounces)) ∧
    ((Announce s now h).2.isSome = true →
      (Announce s now h).1 = s ∧
      ∀ t, collectAnnounces (Announce s now h).1.announces t
        = collectAnnounces s.announces t) := by
  cases hg : getAnnounce s.announces h with
  | some i =>
    have hnn : ¬ ∀ a ∈ s.announces, a.infoHash ≠ h := by
      intro hall
      rw [(getAnnounce_eq_none_iff s.announces h).2 hall] at hg
      cases hg
    simp [Announce, hg, hnn]
  | none =>
    have hall := (getAnnounce_eq_none_iff s.announces h).1 hg
    by_cases hcap : (s.announces.length : Int) + 1 > s.config.MaxAnnounces
    · have hres : Announce s now h = (s, some Err.tryAgainLater) := by
        simp [Announce, hg, hcap]
      rw [hres]
      exact ⟨⟨fun _ => ⟨hall, hcap⟩, fun _ => rfl⟩, fun _ => ⟨rfl, fun _ => rfl⟩⟩
    · have hres : (Announce s now h).2 = none := by
        simp [Announce, hg, hcap]
      rw [hres]
      exact ⟨⟨fun hs => (by cases hs), fun hs => absurd hs.2 hcap⟩, fun hs => (by cases hs)⟩

/-- C3: for an address that url.Parse accepts and an interval of at least
MinRemoteInterval, Subscribe returns an error exactly when no remote has the address and
len(remotes) + 1 > MaxRemotes, and then the state is the one before; when some remote has
the address it returns no error, whatever the size of the registry. -/
theorem C3_subscribe_error_iff_full (parseOk : String → Bool) (s : Server) (uri : String)
    (interval : Int) (hp : parseOk uri = true) (hi : s.config.MinRemoteInterval ≤ interval) :
    ((Subscribe parseOk s uri interval).2.isSome = true ↔
      ((∀ r ∈ s.remotes, r.addr ≠ uri) ∧
        (s.remotes.length : Int) + 1 > s.config.MaxRemotes)) ∧
    ((Subscribe parseOk s uri interval).2.isSome = true →
      (Subscribe parseOk s uri interval).1 = s) ∧
    ((∃ r ∈ s.remotes, r.addr = uri) → (Subscribe parseOk s uri interval).2 = none) := by
  have hi2 : ¬ interval < s.config.MinRemoteInterval := not_lt.2 hi
  cases hg : getRemote s.remotes uri with
  | some i =>
    have hnn : ¬ ∀ r ∈ s.remotes, r.addr ≠ uri := by
      intro hall
      rw [(getRemote_eq_none_iff s.remotes uri).2 hall] at hg
      cases hg
    have hres : (Subscribe parseOk s uri interval).2 = none := by
      simp [Subscribe, hp, hi2, hg]
    rw [hres]
    exact ⟨⟨fun hs => (by cases hs), fun hs => absurd hs.1 hnn⟩, fun hs => (by cases hs),
      fun _ => rfl⟩
  | none =>
    have hall := (getRemote_eq_none_iff s.remotes uri).1 hg
    have hnex : ¬ ∃ r ∈ s.remotes, r.addr = uri := fun ⟨r, hr, he⟩ => hall r hr he
    by_cases hcap : (s.remotes.length : Int) + 1 > s.config.MaxRemotes
    · have hres : Subscribe parseOk s uri interval = (s, some Err.tryAgainLater) := by
        simp [Subscribe, hp, hi2, hg, hcap]
      rw [hres]
      exact ⟨⟨fun _ => ⟨hall, hcap⟩, fun _ => rfl⟩, fun _ => rfl, fun hex => absurd hex hnex⟩
    · have hres : (Subscribe parseOk s uri interval).2 = none := by
        simp [Subscribe, hp, hi2, hg, hcap]
      rw [hres]
      exact ⟨⟨fun hs => (by cases hs), fun hs => absurd hs.2 hcap⟩, fun hs => (by cases hs),
        fun _ => rfl⟩

theorem C3_subscribe_error_iff_full_witness :
    testServer.config.MinRemoteInterval ≤ second * 3 ∧
    (Subscribe (fun _ => true) testServer "http://127.0.0.1:8081/notify" (second * 3)).2.isSome
      = true ∧
    (Subscribe (fun _ => true) testServer "http://127.0.0.1:8081/notify" (second * 3)).1
      = testServer ∧
    (Subscribe (fun _ => true) testServer "http://127.0.0.1:8080/notify" (second * 3)).2
      = none :=
  ⟨by decide,
    (C3_subscribe_error_iff_full (fun _ => true) testServer "http://127.0.0.1:8081/notify"
      (second * 3) rfl (by decide)).1.2 ⟨by decide, by decide⟩,
    (C3_subscribe_error_iff_full (fun _ => true) testServer "http://127.0.0.1:8081/notify"
      (second * 3) rfl (by decide)).2.1 (by decide),
    (C3_subscribe_error_iff_full (fun _ => true) testServer "http://127.0.0.1:8080/notify"
      (second * 3) rfl (by decide)).2.2 ⟨testRemote, by decide, by decide⟩⟩

/-- C4: for every state, every address and every interval below MinRemoteInterval,
Subscribe returns an error and the state afterwards is the state before: no remote is
created and no field of an existing remote changes. -/
theorem C4_subscribe_short_interval_rejected (parseOk : String → Bool) (s : Server)
    (uri : String) (interval : Int) (hi : interval < s.config.MinRemoteInterval) :
    (Subscribe parseOk s uri interval).2.isSome = true ∧
    (Subscribe parseOk s uri interval).1 = s ∧
    (Subscribe parseOk s uri interval).1.remotes = s.remotes := by
  by_cases hp : parseOk uri = true
  · have hres : Subscribe parseOk s uri interval = (s, some Err.intervalTooShort) := by
      simp [Subscribe, hp, hi]
    rw [hres]
    exact ⟨rfl, rfl, rfl⟩
  · have hres : Subscribe parseOk s uri interval = (s, some Err.parse) := by
      simp [Subscribe, hp]
    rw [hres]
    exact ⟨rfl, rfl, rfl⟩

theorem C4_subscribe_short_interval_rejected_witness :
    (1000000 : Int) < testServer.config.MinRemoteInterval ∧
    (Subscribe (fun _ => true) testServer "http://127.0.0.1:8080/notify" 1000000).2.isSome
      = true ∧
    (Subscribe (fun _ => true) testServer "http://127.0.0.1:8080/notify" 1000000).1
      = testServer :=
  ⟨by decide,
    (C4_subscribe_short_interval_rejected (fun _ => true) testServer
      "http://127.0.0.1:8080/notify" 1000000 (by decide)).1,
    (C4_subscribe_short_interval_rejected (fun _ => true) testServer
      "http://127.0.0.1:8080/notify" 1000000 (by decide)).2.1⟩

/-- C5: on a registry with distinct hashes, if Announce(H) at t1 returns no error then
Announce(H) at t2 returns no error either, whatever the capacity; afterwards the registry
has the same length, its entries with hash H are the single entry (H, t2), and every
position holding another hash holds the same entry as after the first call. -/
theorem C5_announce_twice_refreshes (s : Server) (h : Nat) (t1 t2 : Int)
    (hnd : (s.announces.map announce.infoHash).Nodup) (ht : t1 ≤ t2)
    (h1 : (Announce s t1 h).2 = none) :
    (Announce (Announce s t1 h).1 t2 h).2 = none ∧
    (Announce (Announce s t1 h).1 t2 h).1.announces.length
      = (Announce s t1 h).1.announces.length ∧
    (Announce (Announce s t1 h).1 t2 h).1.announces.filter
      (fun a => decide (a.infoHash = h)) = [⟨h, t2⟩] ∧
    (∀ j : Nat, (∀ a, (Announce s t1 h).1.announces[j]? = some a → a.infoHash ≠ h) →
      (Announce (Announce s t1 h).1 t2 h).1.announces[j]?
        = (Announce s t1 h).1.announces[j]?) ∧
    (Announce (Announce s t1 h).1 t2 h).1.remotes = s.remotes := by
  have _ := ht
  -- the registry after the first call: distinct hashes, H among them
  have hfirst : ((Announce s t1 h).1.announces.map announce.infoHash).Nodup ∧
      (∃ a ∈ (Announce s t1 h).1.announces, a.infoHash = h) ∧
      (Announce s t1 h).1.remotes = s.remotes := by
    cases hg : getAnnounce s.announces h with
    | some i =>
      obtain ⟨a, ha, hah, _⟩ := getAnnounce_some s.announces h i hg
      have hann : (Announce s t1 h).1.announces
          = s.announces.modify (fun a => { a with lastAnnounce := t1 }) i := by
        simp [Announce, hg]
      have hrem : (Announce s t1 h).1.remotes = s.remotes := by simp [Announce, hg]
      rw [hann, map_infoHash_refresh]
      refine ⟨hnd, ⟨⟨h, t1⟩, ?_, rfl⟩, hrem⟩
      apply List.getElem?_mem (n := i)
      rw [List.getElem?_modify_eq, ha, ← hah]
      rfl
    | none =>
      have hall := (getAnnounce_eq_none_iff s.announces h).1 hg
      by_cases hcap : (s.announces.length : Int) + 1 > s.config.MaxAnnounces
      · simp [Announce, hg, hcap] at h1
      · have hann : (Announce s t1 h).1.announces = s.announces ++ [⟨h, t1⟩] := by
          simp [Announce, hg, hcap]
        have hrem : (Announce s t1 h).1.remotes = s.remotes := by simp [Announce, hg, hcap]
        rw [hann]
        refine ⟨?_, ⟨⟨h, t1⟩, by simp, rfl⟩, hrem⟩
        rw [List.map_append, List.nodup_append]
        refine ⟨hnd, by simp, ?_⟩
        intro k hk1 hk2
        simp only [List.map_cons, List.map_nil, List.mem_singleton] at hk2
        obtain ⟨a, ha, hak⟩ := List.mem_map.1 hk1
        exact hall a ha (hak.trans hk2)
  obtain ⟨hnd1, ⟨a, ha, hah⟩, hrem1⟩ := hfirst
  generalize (Announce s t1 h).1 = s1 at hnd1 ha hrem1 ⊢
  obtain ⟨i, hg⟩ : ∃ i, getAnnounce s1.announces h = some i := by
    rw [getAnnounce_eq_firstIdx]
    exact firstIdx_isSome_of_mem _ s1.announces a ha (by simpa using hah)
  obtain ⟨x, hx, hxh, _⟩ := getAnnounce_some s1.announces h i hg
  have hann : (Announce s1 t2 h).1.announces
      = s1.announces.modify (fun a => { a with lastAnnounce := t2 }) i := by
    simp [Announce, hg]
  refine ⟨by simp [Announce, hg], by rw [hann, List.length_modify], ?_, ?_, ?_⟩
  · rw [hann]
    exact filter_hash_refresh s1.announces i t2 h x hnd1 hx hxh
  · intro j hj
    rw [hann]
    have hne : i ≠ j := by
      rintro rfl
      exact hj x hx hxh
    rw [List.getElem?_modify_ne _ _ hne]
  · rw [← hrem1]
    simp [Announce, hg]

theorem C5_announce_twice_refreshes_witness :
    (testServer.announces.map announce.infoHash).Nodup ∧ second * 3 ≤ second * 4 ∧
    (Announce testServer (second * 3) 1).2 = none ∧
    (Announce (Announce testServer (second * 3) 1).1 (second * 4) 1).2 = none ∧
    (Announce (Announce testServer (second * 3) 1).1 (second * 4) 1).1.announces.filter
      (fun a => decide (a.infoHash = 1)) = [⟨1, second * 4⟩] :=
  ⟨by decide, by decide, by decide,
    (C5_announce_twice_refreshes testServer 1 (second * 3) (second * 4) (by decide)
      (by decide) (by decide)).1,
    (C5_announce_twice_refreshes testServer 1 (second * 3) (second * 4) (by decide)
      (by decide) (by decide)).2.2.1⟩

/-- C6: when the registry holds a remote with address A (every stored address having
passed url.Parse) and the interval is at least MinRemoteInterval, Subscribe(A, interval)
returns no error; the remote that getRemote finds, the first with address A, gets the new
interval, onHold unset and failures 0 and keeps its address and lastCall; every other
position, the length of the registry and the announces are as before. -/
theorem C6_resubscribe_resets_remote (parseOk : String → Bool) (s : Server) (uri : String)
    (interval : Int) (hwf : ∀ r ∈ s.remotes, parseOk r.addr = true)
    (hi : s.config.MinRemoteInterval ≤ interval) (hex : ∃ r ∈ s.remotes, r.addr = uri) :
    (Subscribe parseOk s uri interval).2 = none ∧
    (Subscribe parseOk s uri interval).1.remotes.length = s.remotes.length ∧
    (Subscribe parseOk s uri interval).1.announces = s.announces ∧
    ∃ i r, s.remotes[i]? = some r ∧ r.addr = uri ∧
      (∀ j y, j < i → s.remotes[j]? = some y → y.addr ≠ uri) ∧
      (Subscribe parseOk s uri interval).1.remotes[i]?
        = some ⟨r.addr, r.lastCall, interval, 0, none⟩ ∧
      ∀ j : Nat, j ≠ i → (Subscribe parseOk s uri interval).1.remotes[j]? = s.remotes[j]? := by
  obtain ⟨r0, hr0, hr0a⟩ := hex
  have hp : parseOk uri = true := hr0a ▸ hwf r0 hr0
  have hi2 : ¬ interval < s.config.MinRemoteInterval := not_lt.2 hi
  obtain ⟨i, hg⟩ : ∃ i, getRemote s.remotes uri = some i := by
    rw [getRemote_eq_firstIdx]
    exact firstIdx_isSome_of_mem _ s.remotes r0 hr0 (by simpa using hr0a)
  obtain ⟨r, hr, hra, hmin⟩ := getRemote_some s.remotes uri i hg
  have hrem : (Subscribe parseOk s uri interval).1.remotes
      = s.remotes.modify
          (fun r => { r with interval := interval, onHold := none, failures := 0 }) i := by
    simp [Subscribe, hp, hi2, hg]
  refine ⟨by simp [Subscribe, hp, hi2, hg], by rw [hrem, List.length_modify],
    by simp [Subscribe, hp, hi2, hg], i, r, hr, hra, hmin, ?_, ?_⟩
  · rw [hrem, List.getElem?_modify_eq, hr]
    rfl
  · intro j hj
    rw [hrem, List.getElem?_modify_ne _ _ (Ne.symm hj)]

theorem C6_resubscribe_resets_remote_witness :
    (∀ r ∈ heldServer.remotes, (fun _ => true) r.addr = true) ∧
    heldServer.config.MinRemoteInterval ≤ second * 4 ∧
    (∃ r ∈ heldServer.remotes, r.addr = "http://127.0.0.1:8080/notify") ∧
    (Subscribe (fun _ => true) heldServer "http://127.0.0.1:8080/notify" (second * 4)).2
      = none ∧
    (Subscribe (fun _ => true) heldServer "http://127.0.0.1:8080/notify" (second * 4)).1.remotes
      = [⟨"http://127.0.0.1:8080/notify", some second, second * 4, 0, none⟩] :=
  ⟨fun _ _ => rfl, by decide, ⟨heldRemote, by decide, by decide⟩,
    (C6_resubscribe_resets_remote (fun _ => true) heldServer "http://127.0.0.1:8080/notify"
      (second * 4) (fun _ _ => rfl) (by decide) ⟨heldRemote, by decide, by decide⟩).1,
    by decide⟩

/-- C7, as stated, fails: a remote last called at 1 s with interval 3 s has
lastCall + interval = 4 s, and in an iteration at exactly 4 s the test of line 92 is false,
so collectAnnounces is not called and nothing is sent, although an announce newer than
the reference time is stored. -/
theorem C7_counterexample :
    ¬ (isDue (second * 4) calledRemote = true ↔ second + calledRemote.interval ≤ second * 4) ∧
    calledRemote.onHold = none ∧ calledRemote.lastCall = some second ∧
    second + calledRemote.interval ≤ second * 4 ∧
    isDue (second * 4) calledRemote = false ∧
    collectAnnounces [⟨1, second * 5⟩] (second + calledRemote.interval) = [1] ∧
    visitRemote testConfig [⟨1, second * 5⟩] (fun _ _ => true) (second * 4) calledRemote
      = (calledRemote, none) := by
  decide

/-- C7, amended: in an iteration at time now, an active remote whose lastCall is set is
due exactly when lastCall + interval is strictly before now; then its announces newer
than lastCall + interval are collected and, when there are any, send is called with them.
When lastCall + interval is now or later, the remote is not due: nothing is collected or
sent and the remote is left as it is. -/
theorem C7_due_iff_reference_before_now (cfg : Config) (anns : List announce)
    (send : String → List Nat → Bool) (now : Int) (r : remote) (lc : Int)
    (hact : r.onHold = none) (hlc : r.lastCall = some lc) :
    (isDue now r = true ↔ lc + r.interval < now) ∧
    (lc + r.interval < now → collectAnnounces anns (lc + r.interval) ≠ [] →
      (visitRemote cfg anns send now r).2 = some (collectAnnounces anns (lc + r.interval))) ∧
    (lc + r.interval < now → collectAnnounces anns (lc + r.interval) = [] →
      visitRemote cfg anns send now r = (r, none)) ∧
    (now ≤ lc + r.interval → visitRemote cfg anns send now r = (r, none)) := by
  have href : refTime now r = lc + r.interval := by simp [refTime, hlc]
  have hiff : isDue now r = true ↔ lc + r.interval < now := by
    simp [isDue, hlc, href]
  refine ⟨hiff, ?_, ?_, ?_⟩
  · intro hlt hne
    rw [← href] at hne ⊢
    rw [visitRemote_attempt cfg anns send now r hact (hiff.2 hlt) hne]
    split <;> rfl
  · intro hlt hnil
    simp [visitRemote, hact, hiff.2 hlt, href, hnil]
  · intro hle
    have hnd : isDue now r = false := by
      cases hd : isDue now r with
      | false => rfl
      | true => exact absurd (hiff.1 hd) (not_lt.2 hle)
    simp [visitRemote, hact, hnd]

theorem C7_due_iff_reference_before_now_witness :
    calledRemote.onHold = none ∧ calledRemote.lastCall = some second ∧
    (isDue (second * 4 + 1) calledRemote = true ↔
      second + calledRemote.interval < second * 4 + 1) ∧
    visitRemote testConfig [] (fun _ _ => true) (second * 4) calledRemote
      = (calledRemote, none) :=
  ⟨rfl, rfl,
    (C7_due_iff_reference_before_now testConfig [] (fun _ _ => true) (second * 4 + 1)
      calledRemote second rfl rfl).1,
    (C7_due_iff_reference_before_now testConfig [] (fun _ _ => true) (second * 4)
      calledRemote second rfl rfl).2.2.2 (by decide)⟩

/-- C8, as stated, fails in its last sentence. On the test configuration (MaxFailures = 1)
the run subscribe, announce, failed delivery at 1 s, Subscribe again, failed delivery at
2 s makes two consecutive failed calls of send for the remote and leaves it in the
registry, active, with failures = 1: the Subscribe in between set failures back to 0
(line 225). Without that Subscribe the second failure puts the remote on hold and the
same iteration removes it. In the event model: two failures since the last success,
MaxFailures + 1 of them, and onHold unset. -/
theorem C8_counterexample :
    testConfig.MaxFailures = 1 ∧
    (run (fun _ => true) (New (some testConfig)) resubscribedSteps).2
      = [("http://127.0.0.1:8080/notify", [1]), ("http://127.0.0.1:8080/notify", [1])] ∧
    (run (fun _ => true) (New (some testConfig)) resubscribedSteps).1.remotes
      = [⟨"http://127.0.0.1:8080/notify", none, second * 3, 1, none⟩] ∧
    (run (fun _ => true) (New (some testConfig)) twoFailuresSteps).2
      = [("http://127.0.0.1:8080/notify", [1]), ("http://127.0.0.1:8080/notify", [1])] ∧
    (run (fun _ => true) (New (some testConfig)) twoFailuresSteps).1.remotes = [] ∧
    failsSinceSuccess testConfig servedRemote failuresAroundResubscribe 0
      = testConfig.MaxFailures + 1 ∧
    (remoteAfter testConfig servedRemote failuresAroundResubscribe).onHold = none := by
  decide

/-- C8, amended: when, in an iteration at time now, send fails for a due active remote
with a non-empty batch, the remote has failures one higher than before, the same address,
lastCall and interval, and onHold set to now exactly when the new failures is strictly
greater than MaxFailures (unset otherwise); this is what the first loop writes at the
position of the remote, and the call is among the calls of the iteration. With
MaxFailures not negative, a remote is put on hold exactly at its (MaxFailures + 1)-th
consecutive failure since its last success or its last (re-)subscription, whichever came
last: that count never passes MaxFailures + 1 and the remote is on hold exactly when the
count is MaxFailures + 1. -/
theorem C8_failed_delivery_counts_and_holds (cfg : Config) (anns : List announce)
    (send : String → List Nat → Bool) (now : Int) (r : remote)
    (hact : r.onHold = none) (hdue : isDue now r = true)
    (hne : collectAnnounces anns (refTime now r) ≠ [])
    (hfail : send r.addr (collectAnnounces anns (refTime now r)) = false) :
    (visitRemote cfg anns send now r).2 = some (collectAnnounces anns (refTime now r)) ∧
    (visitRemote cfg anns send now r).1.failures = r.failures + 1 ∧
    (visitRemote cfg anns send now r).1.lastCall = r.lastCall ∧
    (visitRemote cfg anns send now r).1.interval = r.interval ∧
    (visitRemote cfg anns send now r).1.addr = r.addr ∧
    ((visitRemote cfg anns send now r).1.onHold = some now ↔
      (visitRemote cfg anns send now r).1.failures > cfg.MaxFailures) ∧
    (¬ (visitRemote cfg anns send now r).1.failures > cfg.MaxFailures →
      (visitRemote cfg anns send now r).1.onHold = none) ∧
    (∀ (rs : List remote) (i : Nat), rs[i]? = some r →
      (passRemotes cfg anns send now rs)[i]?
        = some ⟨r.addr, r.lastCall, r.interval, r.failures + 1,
            if r.failures + 1 > cfg.MaxFailures then some now else none⟩) ∧
    (∀ rs : List remote, r ∈ rs →
      (r.addr, collectAnnounces anns (refTime now r)) ∈ (tick ⟨anns, rs, cfg⟩ send now).2) ∧
    (∀ (events : List RemoteEvent) (r0 : remote),
      r0.onHold = none → 0 ≤ r0.failures → r0.failures ≤ cfg.MaxFailures →
      failStreak cfg r0 events r0.failures ≤ cfg.MaxFailures + 1 ∧
      ((remoteAfter cfg r0 events).onHold.isSome = true ↔
        failStreak cfg r0 events r0.failures = cfg.MaxFailures + 1)) := by
  have hv : visitRemote cfg anns send now r
      = (⟨r.addr, r.lastCall, r.interval, r.failures + 1,
          if r.failures + 1 > cfg.MaxFailures then some now else none⟩,
        some (collectAnnounces anns (refTime now r))) := by
    rw [visitRemote_attempt cfg anns send now r hact hdue hne, hfail, hact]
    simp
  refine ⟨by rw [hv], by rw [hv], by rw [hv], by rw [hv], by rw [hv], ?_, ?_, ?_, ?_, ?_⟩
  · rw [hv]
    show (if r.failures + 1 > cfg.MaxFailures then some now else none) = some now ↔
      r.failures + 1 > cfg.MaxFailures
    by_cases hmax : r.failures + 1 > cfg.MaxFailures <;> simp [hmax]
  · rw [hv]
    intro hmax
    show (if r.failures + 1 > cfg.MaxFailures then some now else none) = none
    rw [if_neg hmax]
  · intro rs i hi
    rw [getElem?_passRemotes, hi, Option.map_some', hv]
  · intro rs hr
    show _ ∈ passPosts cfg anns send now rs
    rw [mem_passPosts]
    exact ⟨r, hr, rfl, by rw [hv]⟩
  · intro events r0 h1 h2 h3
    have hf := remoteAfter_failures cfg events r0
    have hinv := remoteAfter_hold cfg (le_trans h2 h3) events r0 (Or.inl ⟨h1, h2, h3⟩)
    rw [← hf]
    rcases hinv with ⟨ha, _, hle⟩ | ⟨hh, he⟩
    · refine ⟨by omega, ?_⟩
      rw [ha]
      constructor
      · intro h; cases h
      · intro h; omega
    · exact ⟨by omega, fun _ => he, fun _ => hh⟩

theorem C8_failed_delivery_counts_and_holds_witness :
    failedRemote.onHold = none ∧ isDue (second * 3) failedRemote = true ∧
    collectAnnounces testServer.announces (refTime (second * 3) failedRemote) ≠ [] ∧
    (visitRemote testConfig testServer.announces (fun _ _ => false) (second * 3)
      failedRemote).1.failures = failedRemote.failures + 1 ∧
    (passRemotes testConfig testServer.announces (fun _ _ => false) (second * 3)
      [failedRemote])[0]?
      = some ⟨"http://127.0.0.1:8080/notify", none, second * 3, 2, some (second * 3)⟩ :=
  ⟨rfl, by decide, by decide,
    (C8_failed_delivery_counts_and_holds testConfig testServer.announces (fun _ _ => false)
      (second * 3) failedRemote rfl (by decide) (by decide) rfl).2.1,
    (C8_failed_delivery_counts_and_holds testConfig testServer.announces (fun _ _ => false)
      (second * 3) failedRemote rfl (by decide) (by decide) rfl).2.2.2.2.2.2.2.1
      [failedRemote] 0 rfl⟩

/-- C9, as stated, fails in its last sentence. On lenientConfig (MaxFailures = 5) the run
subscribe, announce, successful delivery at 1 s, announce at 4 s, failed delivery at 5 s,
Subscribe again, failed delivery at 6 s makes two consecutive failed calls of send since
the last success and ends with failures = 1: the Subscribe in between set failures back
to 0 (line 225). -/
theorem C9_counterexample :
    (run (fun _ => true) (New (some lenientConfig)) successThenFailuresSteps).2
      = [("http://127.0.0.1:8080/notify", [1]), ("http://127.0.0.1:8080/notify", [2]),
         ("http://127.0.0.1:8080/notify", [2])] ∧
    (run (fun _ => true) (New (some lenientConfig)) successThenFailuresSteps).1.remotes
      = [⟨"http://127.0.0.1:8080/notify", some second, second * 2, 1, none⟩] ∧
    failsSinceSuccess lenientConfig servedRemote failuresAroundResubscribe 0 = 2 ∧
    (remoteAfter lenientConfig servedRemote failuresAroundResubscribe).failures = 1 ∧
    (remoteAfter lenientConfig servedRemote failuresAroundResubscribe).failures
      ≠ failsSinceSuccess lenientConfig servedRemote failuresAroundResubscribe 0 := by
  decide

/-- C9, amended: when, in an iteration at time now, send succeeds for a due active remote
with a non-empty batch, the remote has lastCall = now and failures = 0 whatever failures
was, and the same address, interval and unset onHold; this is what the first loop writes
at the position of the remote, the call is among the calls of the iteration and the
remote is kept by the sweep. So failures always counts the consecutive failures since
the last success or the last (re-)subscription of the remote, whichever came last. -/
theorem C9_successful_delivery_resets (cfg : Config) (anns : List announce)
    (send : String → List Nat → Bool) (now : Int) (r : remote)
    (hact : r.onHold = none) (hdue : isDue now r = true)
    (hne : collectAnnounces anns (refTime now r) ≠ [])
    (hok : send r.addr (collectAnnounces anns (refTime now r)) = true) :
    (visitRemote cfg anns send now r).2 = some (collectAnnounces anns (refTime now r)) ∧
    (visitRemote cfg anns send now r).1.lastCall = some now ∧
    (visitRemote cfg anns send now r).1.failures = 0 ∧
    (visitRemote cfg anns send now r).1.addr = r.addr ∧
    (visitRemote cfg anns send now r).1.interval = r.interval ∧
    (visitRemote cfg anns send now r).1.onHold = none ∧
    (∀ (rs : List remote) (i : Nat), rs[i]? = some r →
      (passRemotes cfg anns send now rs)[i]?
        = some ⟨r.addr, some now, r.interval, 0, none⟩) ∧
    (∀ rs : List remote, r ∈ rs →
      (r.addr, collectAnnounces anns (refTime now r)) ∈ (tick ⟨anns, rs, cfg⟩ send now).2 ∧
      ⟨r.addr, some now, r.interval, 0, none⟩ ∈ (tick ⟨anns, rs, cfg⟩ send now).1.remotes) ∧
    (∀ (events : List RemoteEvent) (r0 : remote),
      (remoteAfter cfg r0 events).failures = failStreak cfg r0 events r0.failures) ∧
    (∀ events : List RemoteEvent,
      (remoteAfter cfg (visitRemote cfg anns send now r).1 events).failures
        = failStreak cfg (visitRemote cfg anns send now r).1 events 0) := by
  have hv : visitRemote cfg anns send now r
      = (⟨r.addr, some now, r.interval, 0, none⟩,
        some (collectAnnounces anns (refTime now r))) := by
    rw [visitRemote_attempt cfg anns send now r hact hdue hne, hok, if_pos rfl, hact]
  refine ⟨by rw [hv], by rw [hv], by rw [hv], by rw [hv], by rw [hv], by rw [hv],
    ?_, ?_, fun events r0 => remoteAfter_failures cfg events r0, ?_⟩
  · intro rs i hi
    rw [getElem?_passRemotes, hi, Option.map_some', hv]
  · intro rs hr
    constructor
    · show _ ∈ passPosts cfg anns send now rs
      rw [mem_passPosts]
      exact ⟨r, hr, rfl, by rw [hv]⟩
    · rw [tick_remotes_eq, List.mem_filter]
      constructor
      · show _ ∈ passRemotes cfg anns send now rs
        simp only [passRemotes, List.mem_map]
        exact ⟨r, hr, by rw [hv]⟩
      · simp [evictsRemote]
  · intro events
    rw [remoteAfter_failures, hv]

theorem C9_successful_delivery_resets_witness :
    failedRemote.onHold = none ∧ isDue (second * 3) failedRemote = true ∧
    collectAnnounces testServer.announces (refTime (second * 3) failedRemote) ≠ [] ∧
    (visitRemote testConfig testServer.announces (fun _ _ => true) (second * 3)
      failedRemote).1.failures = 0 ∧
    (passRemotes testConfig testServer.announces (fun _ _ => true) (second * 3)
      [failedRemote])[0]?
      = some ⟨"http://127.0.0.1:8080/notify", some (second * 3), second * 3, 0, none⟩ :=
  ⟨rfl, by decide, by decide,
    (C9_successful_delivery_resets testConfig testServer.announces (fun _ _ => true)
      (second * 3) failedRemote rfl (by decide) (by decide) rfl).2.2.1,
    (C9_successful_delivery_resets testConfig testServer.announces (fun _ _ => true)
      (second * 3) failedRemote rfl (by decide) (by decide) rfl).2.2.2.2.2.2.1
      [failedRemote] 0 rfl⟩

/-- C10: after the second loop of an iteration at time now, the remote registry is the
registry left by the first loop without the remotes whose onHold is set with
onHold + RemoteOnHoldMaxTimeout strictly after now; the others are kept in their order,
and a remote whose onHold is unset is never removed. -/
theorem C10_remote_sweep_is_filter (s : Server) (send : String → List Nat → Bool)
    (now : Int) :
    (tick s send now).1.remotes
      = (passRemotes s.config s.announces send now s.remotes).filter
          (fun r => !evictsRemote s.config now r) ∧
    (∀ r, evictsRemote s.config now r = true ↔
      ∃ t, r.onHold = some t ∧ now < t + s.config.RemoteOnHoldMaxTimeout) ∧
    (∀ r, r ∈ (tick s send now).1.remotes ↔
      (r ∈ passRemotes s.config s.announces send now s.remotes ∧
        ¬ ∃ t, r.onHold = some t ∧ now < t + s.config.RemoteOnHoldMaxTimeout)) ∧
    ((tick s send now).1.remotes).Sublist
      (passRemotes s.config s.announces send now s.remotes) ∧
    (∀ r ∈ passRemotes s.config s.announces send now s.remotes, r.onHold = none →
      r ∈ (tick s send now).1.remotes) := by
  have hev : ∀ r, evictsRemote s.config now r = true ↔
      ∃ t, r.onHold = some t ∧ now < t + s.config.RemoteOnHoldMaxTimeout := by
    intro r
    cases h : r.onHold with
    | none => simp [evictsRemote, h]
    | some t => simp [evictsRemote, h]
  have hrem : (tick s send now).1.remotes
      = (passRemotes s.config s.announces send now s.remotes).filter
          (fun r => !evictsRemote s.config now r) := by
    simp only [tick, tickRemotes, evictRemotes]
    exact sweepDown_eq_filter _ _
  have hmem : ∀ r, r ∈ (tick s send now).1.remotes ↔
      (r ∈ passRemotes s.config s.announces send now s.remotes ∧
        ¬ ∃ t, r.onHold = some t ∧ now < t + s.config.RemoteOnHoldMaxTimeout) := by
    intro r
    rw [hrem, List.mem_filter, ← hev r]
    simp
  refine ⟨hrem, hev, hmem, ?_, ?_⟩
  · rw [hrem]
    exact List.filter_sublist _
  · intro r hr hnone
    refine (hmem r).2 ⟨hr, ?_⟩
    rintro ⟨t, ht, _⟩
    rw [hnone] at ht
    cases ht

/-- C11: the second loop of start does the opposite of what the claim (and the help text
of the RemoteOnHoldMaxTimeout flag) says. A remote put on hold at 2 s with a timeout of
1 s is removed by an iteration at 2 s + 1 ns, inside its hold window, and is kept by an
iteration at 10 s, long after the window has elapsed. -/
theorem C11_sweep_evicts_inside_hold_window :
    heldServer.remotes = [heldRemote] ∧ heldRemote.onHold = some (second * 2) ∧
    heldServer.config.RemoteOnHoldMaxTimeout = second ∧
    second * 2 + 1 < second * 2 + heldServer.config.RemoteOnHoldMaxTimeout ∧
    (tick heldServer (fun _ _ => true) (second * 2 + 1)).1.remotes = [] ∧
    second * 2 + heldServer.config.RemoteOnHoldMaxTimeout < second * 10 ∧
    (tick heldServer (fun _ _ => true) (second * 10)).1.remotes = [heldRemote] := by
  decide

/-- C12: after the third loop of an iteration at time now, the announce registry is the
previous one without the entries whose lastAnnounce + AnnounceMaxTimeout is strictly
before now; the entries with lastAnnounce + AnnounceMaxTimeout >= now are kept as they
are, in their order, and an entry with lastAnnounce = now - AnnounceMaxTimeout - 1 s is
absent afterwards. -/
theorem C12_announce_sweep_is_filter (s : Server) (send : String → List Nat → Bool)
    (now : Int) :
    (tick s send now).1.announces
      = s.announces.filter (fun a => !evictsAnnounce s.config now a) ∧
    (∀ a, evictsAnnounce s.config now a = true ↔
      a.lastAnnounce + s.config.AnnounceMaxTimeout < now) ∧
    (∀ a, a ∈ (tick s send now).1.announces ↔
      (a ∈ s.announces ∧ now ≤ a.lastAnnounce + s.config.AnnounceMaxTimeout)) ∧
    ((tick s send now).1.announces).Sublist s.announces ∧
    (∀ a, a.lastAnnounce = now - s.config.AnnounceMaxTimeout - second →
      a ∉ (tick s send now).1.announces) := by
  have hev : ∀ a, evictsAnnounce s.config now a = true ↔
      a.lastAnnounce + s.config.AnnounceMaxTimeout < now := by
    intro a
    simp [evictsAnnounce]
  have hmem : ∀ a, a ∈ (tick s send now).1.announces ↔
      (a ∈ s.announces ∧ now ≤ a.lastAnnounce + s.config.AnnounceMaxTimeout) := by
    intro a
    rw [tick_announces_eq, List.mem_filter, ← not_lt, ← hev a]
    simp
  refine ⟨tick_announces_eq s send now, hev, hmem, ?_, ?_⟩
  · rw [tick_announces_eq]
    exact List.filter_sublist _
  · intro a ha hin
    have h1 := ((hmem a).1 hin).2
    rw [ha] at h1
    have h2 : (0 : Int) < second := by decide
    omega

/-- C13: collectAnnounces(threshold) returns the hashes of the stored entries whose
lastAnnounce is strictly after the threshold, one per such entry and in stored order; an
entry seen at or before the threshold contributes nothing. The loop only reads the
slice: the function returns the hashes and has no other result. -/
theorem C13_collect_is_filter (anns : List announce) (since : Int) :
    collectAnnounces anns since
      = (anns.filter (fun a => decide (since < a.lastAnnounce))).map announce.infoHash ∧
    (collectAnnounces anns since).length
      = (anns.filter (fun a => decide (since < a.lastAnnounce))).length ∧
    (∀ h, h ∈ collectAnnounces anns since ↔
      ∃ a ∈ anns, a.infoHash = h ∧ since < a.lastAnnounce) ∧
    ((∀ a ∈ anns, a.lastAnnounce ≤ since) → collectAnnounces anns since = []) := by
  refine ⟨collectAnnounces_eq anns since, by rw [collectAnnounces_eq, List.length_map], ?_, ?_⟩
  · intro h
    rw [collectAnnounces_eq, List.mem_map]
    constructor
    · rintro ⟨a, ha, rfl⟩
      rw [List.mem_filter] at ha
      exact ⟨a, ha.1, rfl, by simpa using ha.2⟩
    · rintro ⟨a, ha, rfl, hlt⟩
      exact ⟨a, List.mem_filter.2 ⟨ha, by simpa using hlt⟩, rfl⟩
  · intro hall
    rw [collectAnnounces_eq, List.map_eq_nil_iff, List.filter_eq_nil_iff]
    intro a ha
    simpa using hall a ha

/-- C14: in the first loop of an iteration, a remote that is on hold, or not due, or due
with an empty batch gets no call of send and comes out with all its fields as they were,
at its position in the slice; with distinct addresses no call of the iteration goes to
its address. For every remote, when no call of send is made for it, it is unchanged. -/
theorem C14_skipped_remote_unchanged (cfg : Config) (anns : List announce)
    (send : String → List Nat → Bool) (now : Int) (r : remote)
    (hskip : r.onHold.isSome = true ∨ isDue now r = false ∨
      collectAnnounces anns (refTime now r) = []) :
    visitRemote cfg anns send now r = (r, none) ∧
    (∀ (rs : List remote) (i : Nat), rs[i]? = some r →
      (passRemotes cfg anns send now rs)[i]? = some r) ∧
    (∀ rs : List remote, r ∈ rs → (rs.map remote.addr).Nodup →
      ∀ q ∈ passPosts cfg anns send now rs, q.1 ≠ r.addr) ∧
    (∀ x : remote, (visitRemote cfg anns send now x).2 = none →
      (visitRemote cfg anns send now x).1 = x) := by
  have hv : visitRemote cfg anns send now r = (r, none) := by
    rcases visitRemote_cases cfg anns send now r with h | ⟨hact, hdue, hne, _⟩
    · exact h
    · rcases hskip with h | h | h
      · rw [hact] at h; cases h
      · rw [hdue] at h; cases h
      · exact absurd h hne
  refine ⟨hv, ?_, ?_, fun x hx => visitRemote_fst_of_no_post cfg anns send now x hx⟩
  · intro rs i hi
    rw [getElem?_passRemotes, hi, Option.map_some', hv]
  · intro rs hr hnd q hq heq
    obtain ⟨x, hx, hqx, hpost⟩ := (mem_passPosts cfg anns send now rs q).1 hq
    have hxr : x = r := List.inj_on_of_nodup_map hnd hx hr (hqx.symm.trans heq)
    rw [hxr, hv] at hpost
    cases hpost

theorem C14_skipped_remote_unchanged_witness :
    (heldRemote.onHold.isSome = true ∨ isDue (second * 9) heldRemote = false ∨
      collectAnnounces testServer.announces (refTime (second * 9) heldRemote) = []) ∧
    visitRemote testConfig testServer.announces (fun _ _ => true) (second * 9) heldRemote
      = (heldRemote, none) :=
  ⟨Or.inl rfl,
    (C14_skipped_remote_unchanged testConfig testServer.announces (fun _ _ => true)
      (second * 9) heldRemote (Or.inl rfl)).1⟩

/-- C15: a failing call of send never cuts the iteration short. The calls of send made
by the first loop (addresses and batches) are the same for any two outcome assignments:
every active due remote with a non-empty batch gets its call. A remote on which the two
assignments agree comes out in the same state under both, and the two sweeps are applied
to the whole slices whatever the outcomes were. -/
theorem C15_failure_does_not_abort_iteration (s : Server) (now : Int)
    (send1 send2 : String → List Nat → Bool) :
    (tick s send1 now).2 = (tick s send2 now).2 ∧
    (∀ r : remote, (∀ d, send1 r.addr d = send2 r.addr d) →
      visitRemote s.config s.announces send1 now r
        = visitRemote s.config s.announces send2 now r) ∧
    (∀ (i : Nat) (r : remote), s.remotes[i]? = some r →
      (∀ d, send1 r.addr d = send2 r.addr d) →
      (passRemotes s.config s.announces send1 now s.remotes)[i]?
        = (passRemotes s.config s.announces send2 now s.remotes)[i]?) ∧
    (∀ r ∈ s.remotes, r.onHold = none → isDue now r = true →
      collectAnnounces s.announces (refTime now r) ≠ [] →
      (r.addr, collectAnnounces s.announces (refTime now r)) ∈ (tick s send1 now).2) ∧
    (tick s send1 now).1.remotes
      = (passRemotes s.config s.announces send1 now s.remotes).filter
          (fun r => !evictsRemote s.config now r) ∧
    (tick s send1 now).1.announces
      = s.announces.filter (fun a => !evictsAnnounce s.config now a) := by
  have hvisit : ∀ r : remote, (∀ d, send1 r.addr d = send2 r.addr d) →
      visitRemote s.config s.announces send1 now r
        = visitRemote s.config s.announces send2 now r := by
    intro r hagree
    rcases visitRemote_cases s.config s.announces send1 now r with h | ⟨hact, hdue, hne, _⟩
    · have h2 : (visitRemote s.config s.announces send2 now r).2 = none := by
        rw [visitRemote_snd, ← visitRemote_snd s.config s.announces send1 now r, h]
      rw [h]
      exact Prod.ext (visitRemote_fst_of_no_post _ _ _ _ _ h2).symm h2.symm
    · rw [visitRemote_attempt _ _ send1 now r hact hdue hne,
        visitRemote_attempt _ _ send2 now r hact hdue hne, hagree]
  refine ⟨?_, hvisit, ?_, ?_, tick_remotes_eq s send1 now, tick_announces_eq s send1 now⟩
  · show passPosts _ _ _ _ _ = passPosts _ _ _ _ _
    simp only [passPosts]
    apply congrArg (fun f => List.filterMap f s.remotes)
    funext r
    rw [visitRemote_snd, ← visitRemote_snd s.config s.announces send2 now r]
  · intro i r hi hagree
    rw [getElem?_passRemotes, getElem?_passRemotes, hi, Option.map_some', Option.map_some',
      hvisit r hagree]
  · intro r hr hact hdue hne
    show _ ∈ passPosts _ _ _ _ _
    rw [mem_passPosts]
    refine ⟨r, hr, rfl, ?_⟩
    rw [visitRemote_snd, if_pos ⟨hact, hdue, hne⟩]

/-- C17: in every state reached from New(config), with MaxAnnounces and MaxRemotes not
negative, by any sequence of Announce, Subscribe and iteration steps (whether a call
returned an error or not), len(announces) <= MaxAnnounces and len(remotes) <= MaxRemotes. -/
theorem C17_registries_within_limits (parseOk : String → Bool) (c : Option Config)
    (steps : List Step) (ha : 0 ≤ (New c).config.MaxAnnounces)
    (hr : 0 ≤ (New c).config.MaxRemotes) :
    (run parseOk (New c) steps).1.config = (New c).config ∧
    ((run parseOk (New c) steps).1.announces.length : Int) ≤ (New c).config.MaxAnnounces ∧
    ((run parseOk (New c) steps).1.remotes.length : Int) ≤ (New c).config.MaxRemotes := by
  apply run_invariant parseOk
    (fun s => s.config = (New c).config ∧
      (s.announces.length : Int) ≤ (New c).config.MaxAnnounces ∧
      (s.remotes.length : Int) ≤ (New c).config.MaxRemotes)
  · intro s st h
    exact step_within_limits parseOk (New c).config s st h
  · cases c with
    | none => exact ⟨rfl, ha, hr⟩
    | some cfg => exact ⟨rfl, ha, hr⟩

theorem C17_registries_within_limits_witness :
    0 ≤ (New (some testConfig)).config.MaxAnnounces ∧
    0 ≤ (New (some testConfig)).config.MaxRemotes ∧
    ((run (fun _ => true) (New (some testConfig)) testSteps).1.announces.length : Int) ≤ 2 ∧
    ((run (fun _ => true) (New (some testConfig)) testSteps).1.remotes.length : Int) ≤ 1 :=
  ⟨by decide, by decide,
    (C17_registries_within_limits (fun _ => true) (some testConfig) testSteps (by decide)
      (by decide)).2.1,
    (C17_registries_within_limits (fun _ => true) (some testConfig) testSteps (by decide)
      (by decide)).2.2⟩

/-- C18: in every state reached from New by any sequence of Announce, Subscribe and
iteration steps, no two announces have the same infoHash and no two remotes have the
same address. -/
theorem C18_registry_keys_unique (parseOk : String → Bool) (c : Option Config)
    (steps : List Step) :
    ((run parseOk (New c) steps).1.announces.map announce.infoHash).Nodup ∧
    ((run parseOk (New c) steps).1.remotes.map remote.addr).Nodup := by
  apply run_invariant parseOk
    (fun s => (s.announces.map announce.infoHash).Nodup ∧ (s.remotes.map remote.addr).Nodup)
  · intro s st h
    exact step_keys_unique parseOk s st h
  · cases c with
    | none => exact ⟨List.nodup_nil, List.nodup_nil⟩
    | some cfg => exact ⟨List.nodup_nil, List.nodup_nil⟩

/-- C19: with RemoteOnHoldMaxTimeout > 0 and every iteration taken at one instant, a
remote put on hold by the first loop of an iteration is removed by the second loop of
the same iteration; so in every state reached from New by Announce, Subscribe and
iteration steps every remote has onHold unset, and the remote that getRemote hands to
the un-hold branch of Subscribe is never on hold. -/
theorem C19_hold_is_evicted_in_same_iteration (parseOk : String → Bool) (c : Option Config)
    (hT : 0 < (New c).config.RemoteOnHoldMaxTimeout) :
    (∀ (s : Server) (send : String → List Nat → Bool) (now : Int) (r : remote),
      0 < s.config.RemoteOnHoldMaxTimeout → r.onHold = none →
      (visitRemote s.config s.announces send now r).1.onHold ≠ none →
      (visitRemote s.config s.announces send now r).1 ∉ (tick s send now).1.remotes) ∧
    (∀ steps : List Step, ∀ r ∈ (run parseOk (New c) steps).1.remotes, r.onHold = none) ∧
    (∀ (steps : List Step) (uri : String) (i : Nat),
      getRemote (run parseOk (New c) steps).1.remotes uri = some i →
      ∃ r, (run parseOk (New c) steps).1.remotes[i]? = some r ∧ r.onHold = none) := by
  have hinv : ∀ steps : List Step,
      (run parseOk (New c) steps).1.config = (New c).config ∧
      ∀ r ∈ (run parseOk (New c) steps).1.remotes, r.onHold = none := by
    intro steps
    apply run_invariant parseOk
      (fun s => s.config = (New c).config ∧ ∀ r ∈ s.remotes, r.onHold = none)
    · intro s st h
      exact step_all_active parseOk (New c).config s st hT h
    · cases c with
      | none => exact ⟨rfl, fun r hr => (by cases hr)⟩
      | some cfg => exact ⟨rfl, fun r hr => (by cases hr)⟩
  refine ⟨?_, fun steps => (hinv steps).2, ?_⟩
  · intro s send now r hpos hact hheld hmem
    rw [tick_remotes_eq] at hmem
    have hkeep := (List.mem_filter.1 hmem).2
    rcases visitRemote_onHold s.config s.announces send now r hact with h | h
    · exact hheld h
    · rw [evictsRemote_of_held_now s.config now _ hpos h] at hkeep
      cases hkeep
  · intro steps uri i hg
    obtain ⟨r, hr, _, _⟩ := getRemote_some _ uri i hg
    exact ⟨r, hr, (hinv steps).2 r (List.getElem?_mem hr)⟩

theorem C19_hold_is_evicted_in_same_iteration_witness :
    0 < (New (some testConfig)).config.RemoteOnHoldMaxTimeout ∧
    (∀ r ∈ (run (fun _ => true) (New (some testConfig))
        (testSteps ++ [Step.tick (fun _ _ => false) (second * 2)])).1.remotes,
      r.onHold = none) ∧
    (run (fun _ => true) (New (some testConfig))
      (testSteps ++ [Step.tick (fun _ _ => false) (second * 2)])).1.remotes = [] :=
  ⟨by decide,
    (C19_hold_is_evicted_in_same_iteration (fun _ => true) (some testConfig) (by decide)).2.1
      (testSteps ++ [Step.tick (fun _ _ => false) (second * 2)]),
    by decide⟩

/-- C16, as stated, fails: with the test configuration, a remote subscribed with an
interval of 3 s and two hashes recorded at 1 s and 2 s, the iteration at 2 s, before
1 s + 3 s, already calls send for the remote with both hashes; and for a remote still
never called, the first iteration after 4 s would send the second hash only. -/
theorem C16_counterexample :
    (run (fun _ => true) (New (some testConfig))
      [Step.subscribe "http://127.0.0.1:8080/notify" (second * 3),
       Step.announce second 1, Step.announce (second + second) 2]).1 = testServer ∧
    second * 2 < second + second * 3 ∧
    (tick testServer (fun _ _ => true) (second * 2)).2
      = [("http://127.0.0.1:8080/notify", [1, 2])] ∧
    (tick testServer (fun _ _ => true) (second + second * 3 + 1)).2
      = [("http://127.0.0.1:8080/notify", [2])] := by
  decide

/-- C16, amended: for a remote newly subscribed with interval I and two distinct hashes
recorded at t0 and t0 + 1 s with no iteration in between, an iteration at a time now with
t0 + 1 s <= now < t0 + I, so before t0 + I, makes exactly one call of send, to that
remote, with both hashes; when that call succeeds, later iterations alone (nothing else
announced or subscribed) never call send again, so the remote gets exactly one POST. -/
theorem C16_first_iteration_delivers_both (parseOk : String → Bool) (cfg : Config)
    (send : String → List Nat → Bool) (uri : String) (I t0 now : Int) (h1 h2 : Nat)
    (hp : parseOk uri = true) (hI : cfg.MinRemoteInterval ≤ I) (hR : 1 ≤ cfg.MaxRemotes)
    (hA : 2 ≤ cfg.MaxAnnounces) (hne : h1 ≠ h2) (hnow : t0 + second ≤ now)
    (hbefore : now < t0 + I) :
    (run parseOk (New (some cfg))
      [Step.subscribe uri I, Step.announce t0 h1, Step.announce (t0 + second) h2]).1
      = ⟨[⟨h1, t0⟩, ⟨h2, t0 + second⟩], [⟨uri, none, I, 0, none⟩], cfg⟩ ∧
    (tick ⟨[⟨h1, t0⟩, ⟨h2, t0 + second⟩], [⟨uri, none, I, 0, none⟩], cfg⟩ send now).2
      = [(uri, [h1, h2])] ∧
    (send uri [h1, h2] = true →
      ∀ later : List Step, (∀ st ∈ later, ∃ sd t, st = Step.tick sd t) →
        (run parseOk
          (tick ⟨[⟨h1, t0⟩, ⟨h2, t0 + second⟩], [⟨uri, none, I, 0, none⟩], cfg⟩ send now).1
          later).2 = []) := by
  have hs : (0 : Int) < second := by decide
  have hI2 : ¬ I < cfg.MinRemoteInterval := not_lt.2 hI
  have hR2 : ¬ cfg.MaxRemotes < 1 := not_lt.2 hR
  have hA1 : ¬ cfg.MaxAnnounces < 1 := by omega
  have hA2 : ¬ cfg.MaxAnnounces < 2 := by omega
  have hcol : collectAnnounces [⟨h1, t0⟩, ⟨h2, t0 + second⟩] (now + -I) = [h1, h2] := by
    have e2 : now < t0 + second + I := by omega
    simp [collectAnnounces, hbefore, e2]
  have href : refTime now ⟨uri, none, I, 0, none⟩ = now + -I := rfl
  have hne2 : collectAnnounces [⟨h1, t0⟩, ⟨h2, t0 + second⟩]
      (refTime now ⟨uri, none, I, 0, none⟩) ≠ [] := by
    rw [href, hcol]; simp
  have hsnd : (visitRemote cfg [⟨h1, t0⟩, ⟨h2, t0 + second⟩] send now
      ⟨uri, none, I, 0, none⟩).2 = some [h1, h2] := by
    rw [visitRemote_snd, if_pos ⟨rfl, rfl, hne2⟩, href, hcol]
  have hfst : send uri [h1, h2] = true →
      (visitRemote cfg [⟨h1, t0⟩, ⟨h2, t0 + second⟩] send now ⟨uri, none, I, 0, none⟩).1
        = ⟨uri, some now, I, 0, none⟩ := by
    intro hok
    rw [visitRemote_attempt cfg _ send now ⟨uri, none, I, 0, none⟩ rfl rfl hne2, href, hcol]
    have hok2 : send (remote.mk uri none I 0 none).addr [h1, h2] = true := hok
    rw [if_pos hok2]
  refine ⟨?_, ?_, ?_⟩
  · simp [run, step, New, Subscribe, Announce, getRemote, getAnnounce, hp, hI2, hR2, hA1, hA2,
      hne]
  · show passPosts _ _ _ _ _ = _
    simp only [passPosts, List.filterMap_cons, List.filterMap_nil, hsnd, Option.map_some']
  · intro hok later hticks
    apply run_quiet parseOk ⟨uri, some now, I, 0, none⟩ now (t0 + second) rfl rfl
      (by show t0 + second ≤ now + I; omega) later _ hticks
    · rw [tick_remotes_eq]
      simp [passRemotes, hfst hok, evictsRemote]
    · intro a ha
      rw [tick_announces_eq] at ha
      have hmem := (List.mem_filter.1 ha).1
      simp only [List.mem_cons, List.mem_singleton, List.not_mem_nil, or_false] at hmem
      rcases hmem with rfl | rfl
      · show t0 ≤ t0 + second; omega
      · exact le_refl _

theorem C16_first_iteration_delivers_both_witness :
    testConfig.MinRemoteInterval ≤ second * 3 ∧ 1 ≤ testConfig.MaxRemotes ∧
    2 ≤ testConfig.MaxAnnounces ∧ second + second ≤ second * 2 ∧
    second * 2 < second + second * 3 ∧
    (tick ⟨[⟨1, second⟩, ⟨2, second + second⟩],
        [⟨"http://127.0.0.1:8080/notify", none, second * 3, 0, none⟩], testConfig⟩
      (fun _ _ => true) (second * 2)).2 = [("http://127.0.0.1:8080/notify", [1, 2])] :=
  ⟨by decide, by decide, by decide, by decide, by decide,
    (C16_first_iteration_delivers_both (fun _ => true) testConfig (fun _ _ => true)
      "http://127.0.0.1:8080/notify" (second * 3) second (second * 2) 1 2 rfl (by decide)
      (by decide) (by decide) (by decide) (by decide) (by decide)).2.1⟩

/-- C20: in an iteration, for a remote whose lastCall is set, every hash in the batch
handed to send belongs to a stored announce seen strictly after lastCall + interval. So
a hash whose announce was seen after lastCall but not after lastCall + interval, and is
not seen again, is in no batch sent to that remote, in that iteration or in any later
one, as long as the remote stays in the registry and a new Subscribe does not put its
interval below the present one. -/
theorem C20_batch_is_newer_than_reference (cfg : Config) (anns : List announce)
    (send : String → List Nat → Bool) (now : Int) (r : remote) (lc : Int)
    (hlc : r.lastCall = some lc) :
    (∀ batch, (visitRemote cfg anns send now r).2 = some batch →
      ∀ h ∈ batch, ∃ a ∈ anns, a.infoHash = h ∧ lc + r.interval < a.lastAnnounce) ∧
    (∀ (h : Nat) (la : Int) (events : List RemoteEvent), lc < la → la ≤ lc + r.interval →
      (∀ anns2 send2 now2, RemoteEvent.visit anns2 send2 now2 ∈ events →
        ∀ b ∈ anns2, b.infoHash = h → b.lastAnnounce ≤ la) →
      (∀ i, RemoteEvent.resubscribe i ∈ events → r.interval ≤ i) →
      ∀ batch ∈ remoteLife cfg r events, h ∉ batch) := by
  constructor
  · intro batch hb h hh
    rw [visitRemote_snd] at hb
    split at hb
    · simp only [Option.some.injEq] at hb
      subst hb
      have href : refTime now r = lc + r.interval := by simp [refTime, hlc]
      rw [href] at hh
      exact (mem_collectAnnounces _ _ _).1 hh
    · cases hb
  · intro h la events h1 h2 hold hsub
    exact remoteLife_skips cfg h la r.interval (by omega) events r lc hlc h2 (le_refl _)
      hold hsub

theorem C20_batch_is_newer_than_reference_witness :
    calledRemote.lastCall = some second ∧
    (∀ batch ∈ remoteLife testConfig calledRemote
        [RemoteEvent.visit [⟨7, second * 2⟩, ⟨8, second * 5⟩] (fun _ _ => true) (second * 6)],
      7 ∉ batch) ∧
    remoteLife testConfig calledRemote
        [RemoteEvent.visit [⟨7, second * 2⟩, ⟨8, second * 5⟩] (fun _ _ => true) (second * 6)]
      = [[8]] :=
  ⟨rfl,
    (C20_batch_is_newer_than_reference testConfig [] (fun _ _ => true) (second * 6)
      calledRemote second rfl).2 7 (second * 2) _ (by decide) (by decide)
      (by
        intro anns2 send2 now2 hm b hb hh
        simp only [List.mem_singleton, RemoteEvent.visit.injEq] at hm
        obtain ⟨rfl, _, _⟩ := hm
        simp only [List.mem_cons, List.mem_singleton, List.not_mem_nil, or_false] at hb
        rcases hb with rfl | rfl
        · exact le_refl _
        · exact absurd hh (by decide))
      (by
        intro i hm
        simp at hm),
    by decide⟩

end Hook
